import Mathlib

/-! # BizTime (Node-pg): validation, sanitization and the company / invoice handlers

A shallow embedding of `helpers.js`, of the 404 handler and the error responder of
`app.js`, of the route handlers of `routes/companies.js` and `routes/invoices.js`, and of
the bootstrap of `db.js`.

* JavaScript strings are sequences of UTF-16 code units (`JsString`).
* The regular expressions of `helpers.js` are kept as data (`CharClass`) and run by
  small matchers (`replaceAll`, `testAnchored`).
* Storage is an explicit parameter `db` over an arbitrary store type; a handler
  returns what it handed to the responder, the queries it issued and the new store.
* The database server of the bootstrap is an explicit parameter `eng` in the same way;
  a bootstrap step returns whether it threw, the queries it issued and the new store.
-/

namespace NodePg

/-! ## JavaScript strings -/

/-- A JavaScript string, as its sequence of UTF-16 code units. -/
abbrev JsString := List Nat

/-- The UTF-16 code units of one Unicode scalar value. -/
def utf16 (c : Char) : List Nat :=
  if c.toNat < 65536 then [c.toNat]
  else [55296 + (c.toNat - 65536) / 1024, 56320 + (c.toNat - 65536) % 1024]

/-- The code units of a string literal of the source. -/
def lit (s : String) : JsString := s.toList.flatMap utf16

/-- The code unit of a character written in a regular expression. -/
def cu (c : Char) : Nat := c.toNat

/-- The class escape `\s` (and what `String.prototype.trim` strips): ECMAScript
WhiteSpace and LineTerminator code units. -/
def isJsWhitespace (c : Nat) : Bool :=
  c == 9 || c == 10 || c == 11 || c == 12 || c == 13 || c == 32 || c == 160 ||
  c == 5760 || (decide (8192 ≤ c) && decide (c ≤ 8202)) || c == 8232 || c == 8233 ||
  c == 8239 || c == 8287 || c == 12288 || c == 65279

/-- `String.prototype.trim`. -/
def trim (s : JsString) : JsString :=
  ((s.dropWhile isJsWhitespace).reverse.dropWhile isJsWhitespace).reverse

/-- `String.prototype.includes`: does `sub` occur in `s` as a contiguous run. -/
def includes : JsString → JsString → Bool
  | [], sub => sub.isEmpty
  | c :: cs, sub => sub.isPrefixOf (c :: cs) || includes cs sub

/-! ## Regular expressions of `helpers.js` -/

/-- One member of a bracketed character class. -/
inductive ClassItem where
  | range (lo hi : Nat)
  | single (c : Nat)
  | space
  deriving DecidableEq, Repr

/-- Does a code unit belong to a class member. -/
def ClassItem.test : ClassItem → Nat → Bool
  | .range lo hi, c => decide (lo ≤ c) && decide (c ≤ hi)
  | .single d, c => c == d
  | .space, c => isJsWhitespace c

/-- A bracketed character class `[...]` or `[^...]`. -/
structure CharClass where
  negated : Bool
  items : List ClassItem
  deriving DecidableEq, Repr

/-- Does a code unit match the class. -/
def CharClass.test (k : CharClass) (c : Nat) : Bool :=
  if k.negated then !(k.items.any (fun i => i.test c)) else k.items.any (fun i => i.test c)

/-- `s.replace(/[k]/g, replacement)` for a pattern that is one character class:
every matching code unit is replaced, scanning left to right. -/
def replaceAll (k : CharClass) (replacement : JsString) : JsString → JsString
  | [] => []
  | c :: cs =>
    if k.test c then replacement ++ replaceAll k replacement cs
    else c :: replaceAll k replacement cs

/-- The matcher of `^[k]{lo,hi}$` after `n` repetitions: at the end of input the count
must have reached `lo`; otherwise one more repetition must be allowed and must match. -/
def matchRepeat (k : CharClass) (lo : Nat) (hi : Option Nat) : Nat → JsString → Bool
  | n, [] => decide (lo ≤ n)
  | n, c :: cs =>
    (match hi with
      | some h => decide (n < h)
      | none => true) && k.test c && matchRepeat k lo hi (n + 1) cs

/-- `/^[k]{lo,hi}$/.test(s)`; `hi = none` is an open quantifier (`+` is `{1,}`). -/
def testAnchored (k : CharClass) (lo : Nat) (hi : Option Nat) (s : JsString) : Bool :=
  matchRepeat k lo hi 0 s

/-- The class `[A-Za-z0-9]` of the code pattern `/^[A-Za-z0-9]{3,10}$/`. -/
def codeClass : CharClass :=
  ⟨false, [.range (cu 'A') (cu 'Z'), .range (cu 'a') (cu 'z'), .range (cu '0') (cu '9')]⟩

/-- The class `[A-Za-z0-9\s-]` of the name pattern `/^[A-Za-z0-9\s-]+$/`. -/
def nameClass : CharClass :=
  ⟨false, [.range (cu 'A') (cu 'Z'), .range (cu 'a') (cu 'z'), .range (cu '0') (cu '9'),
    .space, .single (cu '-')]⟩

/-- The class `[^a-zA-Z0-9\s-]` of the sanitizer pattern `/[^a-zA-Z0-9\s-]/g`. -/
def sanitizeClass : CharClass :=
  ⟨true, [.range (cu 'a') (cu 'z'), .range (cu 'A') (cu 'Z'), .range (cu '0') (cu '9'),
    .space, .single (cu '-')]⟩

/-! ## JavaScript values -/

/-- A JavaScript value as it appears in a parsed JSON body, a bound query parameter,
a result row or a response body. -/
inductive JsVal where
  | undefined
  | null
  | bool (b : Bool)
  | num (x : ℚ)
  | str (s : JsString)
  | arr (items : List JsVal)
  | obj (fields : List (String × JsVal))

mutual
/-- Structural equality test on values. -/
def JsVal.beq : JsVal → JsVal → Bool
  | .undefined, .undefined => true
  | .null, .null => true
  | .bool a, .bool b => a == b
  | .num a, .num b => a == b
  | .str a, .str b => a == b
  | .arr a, .arr b => JsVal.beqList a b
  | .obj a, .obj b => JsVal.beqFields a b
  | _, _ => false
/-- Structural equality test on arrays of values. -/
def JsVal.beqList : List JsVal → List JsVal → Bool
  | [], [] => true
  | a :: as, b :: bs => JsVal.beq a b && JsVal.beqList as bs
  | _, _ => false
/-- Structural equality test on property lists. -/
def JsVal.beqFields : List (String × JsVal) → List (String × JsVal) → Bool
  | [], [] => true
  | (k, a) :: as, (l, b) :: bs => k == l && JsVal.beq a b && JsVal.beqFields as bs
  | _, _ => false
end

mutual
theorem JsVal.beq_iff : ∀ a b : JsVal, JsVal.beq a b = true ↔ a = b
  | .undefined, b => by cases b <;> simp [JsVal.beq]
  | .null, b => by cases b <;> simp [JsVal.beq]
  | .bool a, b => by cases b <;> simp [JsVal.beq]
  | .num a, b => by cases b <;> simp [JsVal.beq]
  | .str a, b => by cases b <;> simp [JsVal.beq]
  | .arr a, b => by cases b <;> simp [JsVal.beq, JsVal.beqList_iff a]
  | .obj a, b => by cases b <;> simp [JsVal.beq, JsVal.beqFields_iff a]
theorem JsVal.beqList_iff : ∀ a b : List JsVal, JsVal.beqList a b = true ↔ a = b
  | [], b => by cases b <;> simp [JsVal.beqList]
  | a :: as, b => by
    cases b <;> simp [JsVal.beqList, JsVal.beq_iff a, JsVal.beqList_iff as]
theorem JsVal.beqFields_iff :
    ∀ a b : List (String × JsVal), JsVal.beqFields a b = true ↔ a = b
  | [], b => by cases b <;> simp [JsVal.beqFields]
  | (k, a) :: as, b => by
    cases b with
    | nil => simp [JsVal.beqFields]
    | cons p bs =>
      obtain ⟨l, b⟩ := p
      simp [JsVal.beqFields, JsVal.beq_iff a, JsVal.beqFields_iff as, and_assoc]
end

instance : DecidableEq JsVal := fun a b =>
  decidable_of_iff (JsVal.beq a b = true) (JsVal.beq_iff a b)

deriving instance DecidableEq for Except

/-- The truthiness of a value (`!value` is its negation). -/
def JsVal.truthy : JsVal → Bool
  | .undefined => false
  | .null => false
  | .bool b => b
  | .num x => decide (x ≠ 0)
  | .str s => !s.isEmpty
  | .arr _ => true
  | .obj _ => true

/-- An exception thrown by the language itself. -/
inductive Thrown where
  | typeError
  deriving DecidableEq, Repr

/-! ## helpers.js -/

/-- What `validateInput` returns: `true`, or an `Error` carrying a message. -/
inductive Validation where
  | valid
  | invalid (message : JsString)
  deriving DecidableEq, Repr

/-- The function `validateInput` of `helpers.js`. A truthy value without a `trim`
method makes `value.trim()` throw. -/
def validateInput (value : JsVal) (fieldName : JsString) : Except Thrown Validation :=
  if !value.truthy then
    .ok (.invalid (lit "Invalid " ++ fieldName ++ lit ": cannot be empty"))
  else
    match value with
    | .str v =>
      if trim v == [] then
        .ok (.invalid (lit "Invalid " ++ fieldName ++ lit ": cannot be empty"))
      else if fieldName == lit "code" then
        if !(testAnchored codeClass 3 (some 10) v) then
          .ok (.invalid (lit "Invalid code: must be 3-10 alphanumeric characters"))
        else .ok .valid
      else if fieldName == lit "name" then
        if !(testAnchored nameClass 1 none v) then
          .ok (.invalid
            (lit "Invalid name: must contain only letters, numbers, spaces, and hyphens"))
        else .ok .valid
      else if fieldName == lit "description" then
        if v.length > 255 then
          .ok (.invalid
            (lit "Invalid description: exceeds maximum length of 255 characters"))
        else .ok .valid
      else
        .ok (.invalid (lit "Invalid field: " ++ fieldName))
    | _ => .error .typeError

/-- The function `sanitizeInput` of `helpers.js`. -/
def sanitizeInput (value : JsVal) : JsVal :=
  match value with
  | .str s => .str (replaceAll sanitizeClass [] s)
  | v => v

/-! ## Number conversion of strings (`isNaN`, `isFinite`) -/

/-- How `Number(s)` comes out for a string `s`. -/
inductive NumClass where
  | nan
  | finite
  | infinite
  deriving DecidableEq, Repr

/-- A decimal digit. -/
def isDecimalDigit (c : Nat) : Bool := decide (48 ≤ c) && decide (c ≤ 57)

/-- The value of a digit of a literal in base 16 or less, if it is one. -/
def digitValue (c : Nat) : Option Nat :=
  if 48 ≤ c ∧ c ≤ 57 then some (c - 48)
  else if 97 ≤ c ∧ c ≤ 102 then some (c - 87)
  else if 65 ≤ c ∧ c ≤ 70 then some (c - 55)
  else none

/-- The value of a non-empty run of digits in the given base. -/
def digitsValue (base : Nat) : Nat → JsString → Option Nat
  | acc, [] => some acc
  | acc, c :: cs =>
    match digitValue c with
    | some d => if d < base then digitsValue base (base * acc + d) cs else none
    | none => none

/-- The least magnitude that rounds to `Infinity` under exact round-to-nearest,
`2^1024 - 2^970`: halfway between the largest double `2^1024 - 2^971` and `2^1024` (the
tie goes to the even significand, which is `2^1024`). -/
def overflowThreshold : Nat :=
  179769313486231580793728971405303415079934132710037826936173778980444968292764750946649017977587207096330286416692887910946555547851940402630657488671505820681908902000708383676273854845817711531764475730270069855571366959622842914819860834936475292719074168444365510704342711559699508093042880177904174497792

/-- Does the decimal magnitude `m * 10^e` round to `Infinity`. -/
def overflows (m : Nat) (e : Int) : Bool :=
  if 0 ≤ e then decide (overflowThreshold ≤ m * 10 ^ e.toNat)
  else decide (overflowThreshold * 10 ^ (-e).toNat ≤ m)

/-- The digits of a `DecimalDigits` run that must be non-empty. -/
def decimalDigits (s : JsString) : Option Nat :=
  if s = [] then none else digitsValue 10 0 s

/-- The grammar `ExponentPart` (optional): `e` or `E`, an optional sign, decimal digits. -/
def exponentPart : JsString → Option Int
  | [] => some 0
  | c :: rest =>
    if c = 101 ∨ c = 69 then
      match rest with
      | 43 :: ds => (decimalDigits ds).map (fun n => (n : Int))
      | 45 :: ds => (decimalDigits ds).map (fun n => -(n : Int))
      | ds => (decimalDigits ds).map (fun n => (n : Int))
    else none

/-- The grammar `StrUnsignedDecimalLiteral`: `Infinity`, or digits with an optional
fraction and exponent, or a fraction with an optional exponent. -/
def unsignedDecimalClass (s : JsString) : NumClass :=
  if s = lit "Infinity" then .infinite
  else
    let ip := s.takeWhile isDecimalDigit
    match s.dropWhile isDecimalDigit with
    | 46 :: r =>
      let fp := r.takeWhile isDecimalDigit
      if ip = [] ∧ fp = [] then .nan
      else
        match digitsValue 10 0 (ip ++ fp), exponentPart (r.dropWhile isDecimalDigit) with
        | some m, some e => if overflows m (e - fp.length) then .infinite else .finite
        | _, _ => .nan
    | r =>
      match decimalDigits ip, exponentPart r with
      | some m, some e => if overflows m e then .infinite else .finite
      | _, _ => .nan

/-- The grammar `NonDecimalIntegerLiteral` after its two-unit marker. -/
def nonDecimalClass (base : Nat) (ds : JsString) : NumClass :=
  if ds = [] then .nan
  else
    match digitsValue base 0 ds with
    | some m => if overflowThreshold ≤ m then .infinite else .finite
    | none => .nan

/-- The class of `Number(s)` (the abstract operation StringToNumber): surrounding
whitespace is dropped, the empty string is `0`, then a binary, octal or hexadecimal
integer or a signed decimal literal is read; anything else is `NaN`. -/
def numberClass (s : JsString) : NumClass :=
  match trim s with
  | [] => .finite
  | 48 :: m :: ds =>
    if m = 120 ∨ m = 88 then nonDecimalClass 16 ds
    else if m = 111 ∨ m = 79 then nonDecimalClass 8 ds
    else if m = 98 ∨ m = 66 then nonDecimalClass 2 ds
    else unsignedDecimalClass (48 :: m :: ds)
  | 43 :: t => unsignedDecimalClass t
  | 45 :: t => unsignedDecimalClass t
  | t => unsignedDecimalClass t

/-- The global `isNaN` applied to a string. -/
def isNaN (s : JsString) : Bool := numberClass s == .nan

/-- The global `isFinite` applied to a string. -/
def isFinite (s : JsString) : Bool := numberClass s == .finite

/-! ## Requests, responses, storage -/

/-- A JavaScript object as its list of own enumerable properties. -/
abbrev Props := List (String × JsVal)

/-- Property read `o.k`: `undefined` when `o` has no such property. -/
def prop (o : Props) (k : String) : JsVal := (o.lookup k).getD .undefined

/-- Property write `o.k = v`. -/
def setProp : Props → String → JsVal → Props
  | [], k, v => [(k, v)]
  | (k0, v0) :: rest, k, v =>
    if k0 = k then (k0, v) :: rest else (k0, v0) :: setProp rest k v

/-- What a handler reads of a request: the body parsed by `express.json()` (the empty
object when there is none; an array body has its indices as keys) and the path
parameters, which are strings. -/
structure Request where
  body : Props
  params : List (String × JsString)

/-- Path parameter read `req.params.k`. -/
def Request.param (req : Request) (k : String) : JsVal :=
  match req.params.lookup k with
  | some v => .str v
  | none => .undefined

/-- The part of `process.env` the program reads. -/
structure ProcessEnv where
  TEST_DB_ERROR : Option JsString
  NODE_ENV : Option JsString

/-- Modelled from the spec: `expressError.js` is not among the sources; the envelope is
"a carrier of (message, status)", built as `new ExpressError(message, status)`. The status
is absent when the handler passes none; the responder then falls back to 500. -/
structure ExpressError where
  message : JsString
  status : Option Nat
  deriving DecidableEq, Repr

/-- Modelled from the spec: the envelope as it is serialized under `error` in the body. -/
def ExpressError.toJs (err : ExpressError) : JsVal :=
  match err.status with
  | some st => .obj [("message", .str err.message), ("status", .num st)]
  | none => .obj [("message", .str err.message)]

/-- An HTTP response: status code and JSON body. -/
structure HttpResponse where
  status : Nat
  body : JsVal
  deriving DecidableEq

/-- How a handler ends: `res.status(status).json(body)` (`res.json` keeps 200), or
`next(err)`. -/
inductive Outcome where
  | json (status : Nat) (body : JsVal)
  | next (err : ExpressError)
  deriving DecidableEq

/-- The general error handler of `app.js`: status `err.status || 500`, body
`{ error: err, message: err.message }`. -/
def errorHandler (err : ExpressError) : HttpResponse :=
  { status :=
      match err.status with
      | some st => if st = 0 then 500 else st
      | none => 500
    body := .obj [("error", err.toJs), ("message", .str err.message)] }

/-- The response the client receives for a handler outcome. -/
def respond : Outcome → HttpResponse
  | .json status body => { status := status, body := body }
  | .next err => errorHandler err

/-- The message of a response body, when it has one. -/
def HttpResponse.message (r : HttpResponse) : JsVal :=
  match r.body with
  | .obj fields => prop fields "message"
  | _ => .undefined

/-- Does the response body have the given property. -/
def HttpResponse.hasProperty (r : HttpResponse) (k : String) : Bool :=
  match r.body with
  | .obj fields => (fields.lookup k).isSome
  | _ => false

/-- The SQL statements of the route handlers. -/
inductive Statement where
  | selectCompanies
  | selectCompanyByCode
  | selectInvoiceIdsByCodeLiteral
  | insertCompany
  | updateCompany
  | deleteCompany
  | selectInvoices
  | selectInvoiceById
  | insertInvoice
  | updateInvoice
  | deleteInvoice
  deriving DecidableEq, Repr

/-- A call `db.query(text, params)`. -/
structure Query where
  statement : Statement
  params : List JsVal
  deriving DecidableEq

/-- The result object of a successful query; `rows` holds one object per row. -/
structure QueryResult where
  rows : List Props
  deriving DecidableEq

/-- Property read `result.length`: the result object of the driver has `rows`,
`rowCount`, `command` and `fields`, and no `length`. -/
def QueryResult.length (_ : QueryResult) : JsVal := .undefined

/-- Element read `result.rows[0]`. -/
def QueryResult.firstRow (r : QueryResult) : JsVal :=
  match r.rows with
  | [] => .undefined
  | row :: _ => .obj row

/-- The error a rejected query throws. -/
structure DbError where
  message : JsString
  deriving DecidableEq, Repr

/-- The storage handle: a query either throws or resolves, and may change the store. -/
abbrev Db (σ : Type) := Query → σ → Except DbError QueryResult × σ

/-- What a handler run leaves behind: its outcome, the queries it issued in order, and
the store. -/
structure Handled (σ : Type) where
  outcome : Outcome
  issued : List Query
  store : σ

/-- The body of each handler's inner `try`: with `TEST_DB_ERROR` equal to "true" a
simulated error is thrown before the query is issued; otherwise the query runs. -/
def hookedQuery {σ : Type} (env : ProcessEnv) (db : Db σ) (q : Query) (s : σ) :
    Except DbError QueryResult × List Query × σ :=
  if env.TEST_DB_ERROR = some (lit "true") then
    (.error ⟨lit "Simulated database error"⟩, [], s)
  else ((db q s).1, [q], (db q s).2)

/-- Hand an envelope to `next` without touching storage. -/
def reject {σ : Type} (message : JsString) (status : Nat) (s : σ) : Handled σ :=
  ⟨.next ⟨message, some status⟩, [], s⟩

/-! ## routes/companies.js -/

/-- The handler `router.get('')` of `setupCompanyRoutes`. -/
def companiesGet {σ : Type} (env : ProcessEnv) (db : Db σ) (req : Request) (s : σ) :
    Handled σ :=
  if req.body.length ≠ 0 then
    reject (lit "Extra data not allowed for this endpoint.") 400 s
  else if req.params.length ≠ 0 then
    reject (lit "Extra params not allowed for this endpoint.") 400 s
  else
    match hookedQuery env db ⟨.selectCompanies, []⟩ s with
    | (.error dbError, issued, s1) =>
      ⟨.next ⟨lit "Failed to get companies: " ++ dbError.message, none⟩, issued, s1⟩
    | (.ok retrievedCompanies, issued, s1) =>
      if retrievedCompanies.length = .num 0 then
        ⟨.next ⟨lit "There are no companies.", some 404⟩, issued, s1⟩
      else
        ⟨.json 200 (.obj [("companies", .arr (retrievedCompanies.rows.map .obj))]),
          issued, s1⟩

/-- The handler `router.get('/:code')` of `setupCompanyRoutes`. A missing `code`
parameter makes `req.params.code.toString()` throw, which the outer `catch` answers. The
second lookup is not behind the simulated-failure hook and its error is only logged. -/
def companiesGetCode {σ : Type} (env : ProcessEnv) (db : Db σ) (req : Request) (s : σ) :
    Handled σ :=
  if req.body.length ≠ 0 then
    reject (lit "Extra data not allowed in this endpoint.") 400 s
  else if req.params.length = 0 then
    reject (lit "Request must have a parameter like: /<Company Code>") 400 s
  else
    match req.params.lookup "code" with
    | none => ⟨.next ⟨lit "Failed to fetch company for provided code", none⟩, [], s⟩
    | some code =>
      match sanitizeInput (.str code) with
      | .str searchedCode =>
        if searchedCode.length = 0 then reject (lit "Code must have an input.") 400 s
        else if searchedCode.length > 2048 then
          reject (lit "Code has a max length of 2048.") 400 s
        else
          match hookedQuery env db ⟨.selectCompanyByCode, [.str searchedCode]⟩ s with
          | (.error dbError, issued, s1) =>
            ⟨.next ⟨lit "Failed to get company: " ++ dbError.message, none⟩, issued, s1⟩
          | (.ok retrievedCompany, issued, s1) =>
            match retrievedCompany.rows with
            | [] =>
              ⟨.next ⟨lit "Company not found for code: " ++ searchedCode, some 404⟩,
                issued, s1⟩
            | retrievedCompanyResponse :: _ =>
              let invoiceQuery : Query :=
                ⟨.selectInvoiceIdsByCodeLiteral, [prop retrievedCompanyResponse "code"]⟩
              match db invoiceQuery s1 with
              | (.error _, s2) =>
                ⟨.json 200 (.obj [("company", .obj retrievedCompanyResponse)]),
                  issued ++ [invoiceQuery], s2⟩
              | (.ok retrievedInvoices, s2) =>
                if retrievedInvoices.length ≠ .num 0 then
                  ⟨.json 200 (.obj [("company", .obj (setProp retrievedCompanyResponse
                      "invoices" (.arr (retrievedInvoices.rows.map .obj))))]),
                    issued ++ [invoiceQuery], s2⟩
                else
                  ⟨.json 200 (.obj [("company", .obj retrievedCompanyResponse)]),
                    issued ++ [invoiceQuery], s2⟩
      | _ => reject (lit "Code must have an input.") 400 s

/-- The handler `router.post('/')` of `setupCompanyRoutes`. -/
def companiesPost {σ : Type} (env : ProcessEnv) (db : Db σ) (req : Request) (s : σ) :
    Handled σ :=
  if req.body.length = 0 then reject (lit "Body not found in request.") 400 s
  else if req.params.length ≠ 0 then
    reject (lit "Params are not allowed for this endpoint.") 400 s
  else
    match sanitizeInput (prop req.body "code") with
    | .str newCode =>
      if newCode.length = 0 then reject (lit "Code must have an input.") 400 s
      else if newCode.length > 2048 then reject (lit "Code has a max length of 2048.") 400 s
      else
        match sanitizeInput (prop req.body "name") with
        | .str newName =>
          if newName.length = 0 then
            reject (lit "Name value must have a valid input.") 400 s
          else
            match sanitizeInput (prop req.body "description") with
            | .str newDescription =>
              if newDescription.length > 2048 then
                reject (lit "Description has a max length of 2048.") 400 s
              else
                match hookedQuery env db
                  ⟨.insertCompany, [.str newCode, .str newName, .str newDescription]⟩ s with
                | (.error dbError, issued, s1) =>
                  if includes dbError.message
                      (lit "duplicate key value violates unique constraint") then
                    ⟨.next ⟨lit "Company with duplicate code already exists!", some 400⟩,
                      issued, s1⟩
                  else
                    ⟨.next ⟨lit "Failed to create company: " ++ dbError.message, none⟩,
                      issued, s1⟩
                | (.ok newCompany, issued, s1) =>
                  if newCompany.length = .num 0 then
                    ⟨.next ⟨lit "Failed to create company. Check if code '" ++ newCode ++
                      lit "' already exists", some 400⟩, issued, s1⟩
                  else
                    ⟨.json 201 (.obj [("company", newCompany.firstRow)]), issued, s1⟩
            | _ => reject (lit "Description provided must be a string or empty.") 400 s
        | _ => reject (lit "Name value must have a valid input.") 400 s
    | _ => reject (lit "Code must have an input.") 400 s

/-- The handler `router.put('/:code')` of `setupCompanyRoutes`. Its inner `catch` only
logs, so after a thrown query `currentCompany` is still `undefined`. -/
def companiesPut {σ : Type} (env : ProcessEnv) (db : Db σ) (req : Request) (s : σ) :
    Handled σ :=
  if req.body.length = 0 then
    reject (lit "Updated company data not found in request.") 400 s
  else if req.params.length = 0 then
    reject (lit "Company Code not found in params.") 400 s
  else
    match sanitizeInput (req.param "code") with
    | .str currentCode =>
      if currentCode.length = 0 then
        reject (lit "Code must have an input: /companies/:code") 400 s
      else if currentCode.length > 2048 then
        reject (lit "Code has a max length of 2048.") 400 s
      else
        match sanitizeInput (prop req.body "name") with
        | .str newName =>
          if newName.length = 0 then
            reject (lit "Name value must have a valid input.") 400 s
          else if newName.length > 2048 then
            reject (lit "Name has a max length of 2048.") 400 s
          else
            match sanitizeInput (prop req.body "description") with
            | .str newDescription =>
              if newDescription.length > 2048 then
                reject (lit "Description has a max length of 2048.") 400 s
              else
                let attempt := hookedQuery env db
                  ⟨.updateCompany, [.str newName, .str newDescription, .str currentCode]⟩ s
                let currentCompany : Option QueryResult :=
                  match attempt.1 with
                  | .ok result => some result
                  | .error _ => none
                match currentCompany with
                | some result =>
                  match result.rows with
                  | row :: _ =>
                    ⟨.json 200 (.obj [("company", .obj row)]), attempt.2.1, attempt.2.2⟩
                  | [] =>
                    ⟨.next ⟨lit "Failed to update company. Check if Company Code: '" ++
                      currentCode ++ lit "' exists", some 400⟩, attempt.2.1, attempt.2.2⟩
                | none =>
                  ⟨.next ⟨lit "Failed to update company. Check if Company Code: '" ++
                    currentCode ++ lit "' exists", some 400⟩, attempt.2.1, attempt.2.2⟩
            | _ => reject (lit "Description provided must be a string.") 400 s
        | _ => reject (lit "Name value must have a valid input.") 400 s
    | _ => reject (lit "Code must have an input: /companies/:code") 400 s

/-- The handler `router.delete('/:code')` of `setupCompanyRoutes`. The query result is
bound to a `const currentCompany` declared inside the `try` block; the `currentCompany`
tested after the block is the outer `let`, which is never assigned. -/
def companiesDelete {σ : Type} (env : ProcessEnv) (db : Db σ) (req : Request) (s : σ) :
    Handled σ :=
  if req.params.length = 0 then
    reject (lit "Params for endpoint not found in this request. /companies/:code") 400 s
  else if req.body.length ≠ 0 then reject (lit "Body not allowed in this request.") 400 s
  else
    match sanitizeInput (req.param "code") with
    | .str currentCode =>
      if currentCode.length = 0 then reject (lit "Code must have an input.") 400 s
      else if currentCode.length > 2048 then
        reject (lit "Code has a max length of 2048.") 400 s
      else
        let currentCompany : Option QueryResult := none
        let attempt := hookedQuery env db ⟨.deleteCompany, [.str currentCode]⟩ s
        match currentCompany with
        | some result =>
          match result.rows with
          | _ :: _ =>
            ⟨.json 200 (.obj [("status", .str (lit "deleted"))]), attempt.2.1, attempt.2.2⟩
          | [] =>
            ⟨.next ⟨lit "Failed to delete company. Company Code: '" ++ currentCode ++
              lit "' does not exist", some 400⟩, attempt.2.1, attempt.2.2⟩
        | none =>
          ⟨.next ⟨lit "Failed to delete company. Company Code: '" ++ currentCode ++
            lit "' does not exist", some 400⟩, attempt.2.1, attempt.2.2⟩
    | _ => reject (lit "Code must have an input.") 400 s

/-! ## routes/invoices.js -/

/-- The handler `router.get('')` of `setupInvoiceRoutes`. -/
def invoicesGet {σ : Type} (env : ProcessEnv) (db : Db σ) (req : Request) (s : σ) :
    Handled σ :=
  if req.body.length ≠ 0 then
    reject (lit "Extra data not allowed for this endpoint.") 400 s
  else if req.params.length ≠ 0 then
    reject (lit "Extra params not allowed for this endpoint.") 400 s
  else
    match hookedQuery env db ⟨.selectInvoices, []⟩ s with
    | (.error dbError, issued, s1) =>
      ⟨.next ⟨lit "Failed to read invoices: " ++ dbError.message, none⟩, issued, s1⟩
    | (.ok retrievedInvoices, issued, s1) =>
      if retrievedInvoices.length = .num 0 then
        ⟨.next ⟨lit "There are no invoices to retrieve.", some 404⟩, issued, s1⟩
      else
        ⟨.json 200 (.obj [("invoices", .arr (retrievedInvoices.rows.map .obj))]),
          issued, s1⟩

/-- The company description of an invoice row: `company_description` when truthy, else
the empty string. -/
def descriptionOrEmpty (v : JsVal) : JsVal := if v.truthy then v else .str []

/-- The handler `router.get('/:id')` of `setupInvoiceRoutes`. -/
def invoicesGetId {σ : Type} (env : ProcessEnv) (db : Db σ) (req : Request) (s : σ) :
    Handled σ :=
  if req.body.length ≠ 0 then
    reject (lit "Extra data not allowed in this endpoint.") 400 s
  else if req.params.length = 0 then
    reject (lit "Request must have a parameter like /<Invoice Number>") 400 s
  else
    match sanitizeInput (req.param "id") with
    | .str searchedInvoiceId =>
      if searchedInvoiceId.length = 0 then
        reject (lit "Invoice ID must have an input like /<Invoice Number>") 400 s
      else if isNaN searchedInvoiceId || !isFinite searchedInvoiceId then
        reject (lit "Invoice ID must be a number.") 400 s
      else
        match hookedQuery env db ⟨.selectInvoiceById, [.str searchedInvoiceId]⟩ s with
        | (.error dbError, issued, s1) =>
          ⟨.next ⟨lit "Failed to retrieve Invoice for ID " ++ searchedInvoiceId ++
            lit " - " ++ dbError.message, none⟩, issued, s1⟩
        | (.ok retrievedInvoice, issued, s1) =>
          match retrievedInvoice.rows with
          | [] =>
            ⟨.next ⟨lit "Invoice not found for ID:" ++ searchedInvoiceId, some 404⟩,
              issued, s1⟩
          | currentInvoice :: _ =>
            ⟨.json 200 (.obj [("invoice", .obj [
                ("id", prop currentInvoice "id"),
                ("amt", prop currentInvoice "amt"),
                ("paid", prop currentInvoice "paid"),
                ("add_date", prop currentInvoice "add_date"),
                ("paid_date", prop currentInvoice "paid_date"),
                ("company", .obj [
                  ("code", prop currentInvoice "company_code"),
                  ("name", prop currentInvoice "company_name"),
                  ("description",
                    descriptionOrEmpty (prop currentInvoice "company_description"))])])]),
              issued, s1⟩
    | _ => reject (lit "Invoice ID must have an input like /<Invoice Number>") 400 s

/-- The handler `router.post('')` of `setupInvoiceRoutes`. -/
def invoicesPost {σ : Type} (env : ProcessEnv) (db : Db σ) (req : Request) (s : σ) :
    Handled σ :=
  if req.body.length = 0 then reject (lit "Body not found in request.") 400 s
  else if req.params.length ≠ 0 then
    reject (lit "Params are not allowed for this endpoint.") 400 s
  else
    match sanitizeInput (prop req.body "comp_code") with
    | .str newCode =>
      if newCode.length = 0 then reject (lit "Code must have an input.") 400 s
      else if newCode.length > 2048 then reject (lit "Code has a max length of 2048.") 400 s
      else
        match sanitizeInput (prop req.body "amt") with
        | .str newAmount =>
          if newAmount.length = 0 then
            reject (lit "Amount value must have a valid input.") 400 s
          else if isNaN newAmount || !isFinite newAmount then
            reject (lit "Amount must be a number.") 400 s
          else
            match hookedQuery env db ⟨.insertInvoice, [.str newCode, .str newAmount]⟩ s with
            | (.error dbError, issued, s1) =>
              ⟨.next ⟨lit "Failed to create invoice: " ++ dbError.message, none⟩, issued, s1⟩
            | (.ok newInvoice, issued, s1) =>
              if newInvoice.length = .num 0 then
                ⟨.next ⟨lit "Failed to create invoice. Check your inputs", none⟩, issued, s1⟩
              else
                ⟨.json 201 (.obj [("invoice", newInvoice.firstRow)]), issued, s1⟩
        | _ => reject (lit "Amount value must have a valid input.") 400 s
    | _ => reject (lit "Code must have an input.") 400 s

/-- The handler `router.put('/:id')` of `setupInvoiceRoutes`. The amount is rejected when
`!isNaN(updatedAmt) || !isFinite(updatedAmt)`. -/
def invoicesPut {σ : Type} (env : ProcessEnv) (db : Db σ) (req : Request) (s : σ) :
    Handled σ :=
  if req.body.length = 0 then
    reject (lit "Updated invoice data not found in request.") 400 s
  else if req.params.length = 0 then
    reject (lit "Your request must have a parameter like /<Invoice Number>") 400 s
  else
    match sanitizeInput (req.param "id") with
    | .str searchedInvoiceId =>
      if searchedInvoiceId.length = 0 then
        reject (lit "Invoice ID must have an input like /<Invoice Number>") 400 s
      else if isNaN searchedInvoiceId || !isFinite searchedInvoiceId then
        reject (lit "Invoice ID must be a number.") 400 s
      else
        match sanitizeInput (prop req.body "amt") with
        | .str updatedAmt =>
          if updatedAmt.length = 0 then
            reject (lit "Invoice Amount must have an input in body like \x7bamt: xxxx\x7d")
              400 s
          else if !isNaN updatedAmt || !isFinite updatedAmt then
            reject (lit "Invoice Amount must be a number.") 400 s
          else
            match hookedQuery env db
              ⟨.updateInvoice, [.str updatedAmt, .str searchedInvoiceId]⟩ s with
            | (.error dbError, issued, s1) =>
              ⟨.next ⟨lit "Failed to update invoice: " ++ dbError.message, none⟩, issued, s1⟩
            | (.ok updatedInvoice, issued, s1) =>
              if updatedInvoice.length = .num 0 then
                ⟨.next ⟨lit "Failed to update invoice. Check if Invoice: '" ++
                  searchedInvoiceId ++ lit "' does not exist.", some 400⟩, issued, s1⟩
              else
                ⟨.json 200 (.obj [("invoice", updatedInvoice.firstRow)]), issued, s1⟩
        | _ =>
          reject (lit "Invoice Amount must have an input in body like \x7bamt: xxxx\x7d")
            400 s
    | _ => reject (lit "Invoice ID must have an input like /<Invoice Number>") 400 s

/-- The handler `router.delete('/:code')` of `setupInvoiceRoutes`. It reads
`req.params.id`; when that parameter is missing `req.params.id.toString()` throws and the
outer `catch` answers. After a query that did not throw, every path ends in `next`. -/
def invoicesDelete {σ : Type} (env : ProcessEnv) (db : Db σ) (req : Request) (s : σ) :
    Handled σ :=
  if req.body.length ≠ 0 then
    reject (lit "Extra data not allowed in this endpoint.") 400 s
  else if req.params.length = 0 then
    reject (lit "Your request must have a parameter like /<Invoice Number>") 400 s
  else
    match req.params.lookup "id" with
    | none => ⟨.next ⟨lit "Failed to delete invoice", none⟩, [], s⟩
    | some id =>
      match sanitizeInput (.str id) with
      | .str currentInvoiceId =>
        if currentInvoiceId.length = 0 || isNaN currentInvoiceId then
          reject (lit "Invoice ID must be a valid number.") 400 s
        else if isNaN currentInvoiceId || !isFinite currentInvoiceId then
          reject (lit "Invoice ID must be a number.") 400 s
        else
          match hookedQuery env db ⟨.deleteInvoice, [.str currentInvoiceId]⟩ s with
          | (.error dbError, issued, s1) =>
            ⟨.next ⟨lit "Failed to delete invoice: " ++ dbError.message, none⟩, issued, s1⟩
          | (.ok deletedInvoice, issued, s1) =>
            if deletedInvoice.length = .num 0 then
              ⟨.next ⟨lit "Failed to delete Invoice. Check Invoice ID if valid.", some 404⟩,
                issued, s1⟩
            else ⟨.next ⟨lit "Failed to delete invoice", none⟩, issued, s1⟩
      | _ => reject (lit "Invoice ID must be a valid number.") 400 s

/-! ## db.js -/

/-- The name of the target database: "biztime_test" when `NODE_ENV` is "test", else
"biztime". -/
def dbName (env : ProcessEnv) : JsString :=
  if env.NODE_ENV = some (lit "test") then lit "biztime_test" else lit "biztime"

/-- The constant `requiredTables`. -/
def requiredTables : List JsString := [lit "companies", lit "invoices"]

/-- The SQL statements of `db.js`. -/
inductive BootStatement where
  | selectDatabase
  | createDatabase (name : JsString)
  | selectTables
  | createCompanies
  | createInvoices
  | insertCompanies
  | insertInvoices
  deriving DecidableEq, Repr

/-- A call `client.query(text, values)` on a client connected to `database`. -/
structure BootQuery where
  database : JsString
  statement : BootStatement
  params : List JsVal
  deriving DecidableEq

/-- The database server as the bootstrap sees it: connecting a client to a database,
and running a query on a connected client, either of which may throw. -/
structure Engine (σ : Type) where
  connect : JsString → σ → Except DbError Unit × σ
  query : BootQuery → σ → Except DbError QueryResult × σ

/-- What a bootstrap step leaves behind: whether it threw, the queries it issued in
order, and the store. -/
structure Booted (σ : Type) where
  result : Except DbError Unit
  issued : List BootQuery
  store : σ

/-- One awaited query inside a `try` whose `catch` logs and rethrows. -/
def runQuery {σ : Type} (eng : Engine σ) (q : BootQuery) (s : σ) : Booted σ :=
  match eng.query q s with
  | (.error e, s1) => ⟨.error e, [q], s1⟩
  | (.ok _, s1) => ⟨.ok (), [q], s1⟩

/-- The function `createDatabaseIfNotExists` of `db.js` (the client is ended in `finally`
on every path). -/
def createDatabaseIfNotExists {σ : Type} (env : ProcessEnv) (eng : Engine σ) (s : σ) :
    Booted σ :=
  match eng.connect (lit "postgres") s with
  | (.error e, s1) => ⟨.error e, [], s1⟩
  | (.ok _, s1) =>
    match eng.query ⟨lit "postgres", .selectDatabase, [.str (dbName env)]⟩ s1 with
    | (.error e, s2) =>
      ⟨.error e, [⟨lit "postgres", .selectDatabase, [.str (dbName env)]⟩], s2⟩
    | (.ok result, s2) =>
      if result.rows.length = 0 then
        match eng.query ⟨lit "postgres", .createDatabase (dbName env), []⟩ s2 with
        | (.error e, s3) =>
          ⟨.error e, [⟨lit "postgres", .selectDatabase, [.str (dbName env)]⟩,
            ⟨lit "postgres", .createDatabase (dbName env), []⟩], s3⟩
        | (.ok _, s3) =>
          ⟨.ok (), [⟨lit "postgres", .selectDatabase, [.str (dbName env)]⟩,
            ⟨lit "postgres", .createDatabase (dbName env), []⟩], s3⟩
      else ⟨.ok (), [⟨lit "postgres", .selectDatabase, [.str (dbName env)]⟩], s2⟩

/-- The values bound by `preseedFunction` for the companies table. -/
def companySeedValues : List JsVal :=
  [.str (lit "apple"), .str (lit "Apple Computer"), .str (lit "Maker of OSX."),
    .str (lit "ibm"), .str (lit "IBM"), .str (lit "Big blue.")]

/-- The values bound by `preseedFunction` for the invoices table. -/
def invoiceSeedValues : List JsVal :=
  [.str (lit "apple"), .num 100, .bool false, .null,
    .str (lit "apple"), .num 200, .bool false, .null,
    .str (lit "apple"), .num 300, .bool true, .str (lit "2018-01-01"),
    .str (lit "ibm"), .num 400, .bool false, .null]

/-- The function `preseedFunction` of `db.js` on a client connected to `database`. -/
def preseedFunction {σ : Type} (env : ProcessEnv) (eng : Engine σ) (database : JsString)
    (tableName : JsString) (s : σ) : Booted σ :=
  if env.NODE_ENV = some (lit "test") then ⟨.ok (), [], s⟩
  else if tableName = lit "companies" then
    runQuery eng ⟨database, .insertCompanies, companySeedValues⟩ s
  else if tableName = lit "invoices" then
    runQuery eng ⟨database, .insertInvoices, invoiceSeedValues⟩ s
  else ⟨.error ⟨lit "Unknown table: " ++ tableName⟩, [], s⟩

/-- The function `createTable` of `db.js` on a client connected to `database`. -/
def createTable {σ : Type} (eng : Engine σ) (database : JsString) (tableName : JsString)
    (s : σ) : Booted σ :=
  if tableName = lit "companies" then runQuery eng ⟨database, .createCompanies, []⟩ s
  else if tableName = lit "invoices" then runQuery eng ⟨database, .createInvoices, []⟩ s
  else ⟨.error ⟨lit "Unknown table: " ++ tableName⟩, [], s⟩

/-- The loop `for (const table of requiredTables)` of `checkTables`: a table missing from
`existingTables` is created and then seeded; a throw ends the loop. -/
def ensureTables {σ : Type} (env : ProcessEnv) (eng : Engine σ) (database : JsString)
    (existingTables : List JsVal) : List JsString → σ → Booted σ
  | [], s => ⟨.ok (), [], s⟩
  | table :: rest, s =>
    if existingTables.contains (.str table) then
      ensureTables env eng database existingTables rest s
    else
      match createTable eng database table s with
      | ⟨.error e, created, s1⟩ => ⟨.error e, created, s1⟩
      | ⟨.ok _, created, s1⟩ =>
        match preseedFunction env eng database table s1 with
        | ⟨.error e, seeded, s2⟩ => ⟨.error e, created ++ seeded, s2⟩
        | ⟨.ok _, seeded, s2⟩ =>
          match ensureTables env eng database existingTables rest s2 with
          | ⟨result, later, s3⟩ => ⟨result, created ++ seeded ++ later, s3⟩

/-- The function `checkTables` of `db.js` (the client is ended in `finally` on every
path). -/
def checkTables {σ : Type} (env : ProcessEnv) (eng : Engine σ) (s : σ) : Booted σ :=
  match eng.connect (dbName env) s with
  | (.error e, s1) => ⟨.error e, [], s1⟩
  | (.ok _, s1) =>
    match eng.query ⟨dbName env, .selectTables, []⟩ s1 with
    | (.error e, s2) => ⟨.error e, [⟨dbName env, .selectTables, []⟩], s2⟩
    | (.ok result, s2) =>
      match ensureTables env eng (dbName env)
        (result.rows.map (fun row => prop row "tablename")) requiredTables s2 with
      | ⟨outcome, later, s3⟩ => ⟨outcome, ⟨dbName env, .selectTables, []⟩ :: later, s3⟩

/-- The first two steps of `initializeDatabase`: `createDatabaseIfNotExists`, then
`checkTables`; a throw of the first ends the run. -/
def bootstrap {σ : Type} (env : ProcessEnv) (eng : Engine σ) (s : σ) : Booted σ :=
  match createDatabaseIfNotExists env eng s with
  | ⟨.error e, issued, s1⟩ => ⟨.error e, issued, s1⟩
  | ⟨.ok _, issued, s1⟩ =>
    match checkTables env eng s1 with
    | ⟨result, later, s2⟩ => ⟨result, issued ++ later, s2⟩

/-- The function `initializeDatabase` of `db.js`: the two bootstrap steps, then the pool
connects to the target database. -/
def initializeDatabase {σ : Type} (env : ProcessEnv) (eng : Engine σ) (s : σ) : Booted σ :=
  match bootstrap env eng s with
  | ⟨.error e, issued, s1⟩ => ⟨.error e, issued, s1⟩
  | ⟨.ok _, issued, s1⟩ =>
    match eng.connect (dbName env) s1 with
    | (.error e, s2) => ⟨.error e, issued, s2⟩
    | (.ok _, s2) => ⟨.ok (), issued, s2⟩

/-! ## app.js: the 404 handler and the general error handler on any forwarded value -/

/-- Property read `err.k` as the general error handler does it for `status` and
`message`: an object is read by lookup, a primitive or an array has neither property, and
reading from `undefined` or `null` throws. -/
def readProperty (v : JsVal) (k : String) : Except Thrown JsVal :=
  match v with
  | .undefined => .error .typeError
  | .null => .error .typeError
  | .obj fields => .ok (prop fields k)
  | _ => .ok .undefined

/-- What the general error handler writes: the argument of `res.status` and the argument
of `res.json`. -/
structure Rendered where
  status : JsVal
  body : JsVal
  deriving DecidableEq

/-- The general error handler of `app.js` on any forwarded value `err`:
`res.status(err.status || 500)`, then `res.json` of the object with `error: err` and
`message: err.message`. -/
def generalErrorHandler (err : JsVal) : Except Thrown Rendered :=
  match readProperty err "status", readProperty err "message" with
  | .ok status, .ok message =>
    .ok ⟨if status.truthy then status else .num 500,
      .obj [("error", err), ("message", message)]⟩
  | .error t, _ => .error t
  | _, .error t => .error t

/-- The 404 handler of `app.js`, the middleware after the two routers: it hands
`new ExpressError("Not Found", 404)` to `next`. -/
def notFoundHandler {σ : Type} (_req : Request) (s : σ) : Handled σ :=
  ⟨.next ⟨lit "Not Found", some 404⟩, [], s⟩

/-! ## The WHERE clause of the invoice lookup of GET /companies/:code -/

/-- One side of a comparison in a WHERE clause: a column of the row, a string literal of
the query text, or a bound parameter `$n`. -/
inductive Operand where
  | column (name : String)
  | literal (text : JsString)
  | param (n : Nat)
  deriving DecidableEq, Repr

/-- The value of an operand for a row and the bound parameters (`$1` is the first); a
parameter that is not bound, or bound to `undefined`, is NULL. -/
def Operand.eval (row : Props) (params : List JsVal) : Operand → JsVal
  | .column name => prop row name
  | .literal text => .str text
  | .param n =>
    match params.get? (n - 1) with
    | some .undefined => .null
    | some v => v
    | none => .null

/-- The SQL comparison `a = b` as a filter: true when both sides are non-null and equal. -/
def sqlEquals (a b : JsVal) : Bool := a != .null && b != .null && a == b

/-- A query `SELECT columns FROM table WHERE lhs = rhs`. -/
structure SelectWhere where
  columns : List String
  table : String
  lhs : Operand
  rhs : Operand
  deriving DecidableEq, Repr

/-- The rows a `SelectWhere` returns over the content of its table. -/
def SelectWhere.run (q : SelectWhere) (content : List Props) (params : List JsVal) :
    List Props :=
  (content.filter (fun row => sqlEquals (q.lhs.eval row params) (q.rhs.eval row params))).map
    (fun row => q.columns.map (fun c => (c, prop row c)))

/-- The text of the invoice lookup of `router.get('/:code')` in `companies.js`:
`SELECT id FROM invoices WHERE 'code'=$1`. -/
def invoiceIdsQuery : SelectWhere := ⟨["id"], "invoices", .literal (lit "code"), .param 1⟩

/-! ## The wording of the specification, to compare the code with -/

/-- An ASCII letter. -/
def isAsciiLetter (c : Nat) : Bool :=
  (decide (65 ≤ c) && decide (c ≤ 90)) || (decide (97 ≤ c) && decide (c ≤ 122))

/-- An ASCII digit. -/
def isAsciiDigit (c : Nat) : Bool := decide (48 ≤ c) && decide (c ≤ 57)

/-- A code unit the specification lets through the sanitizer: an ASCII letter, an ASCII
digit, whitespace or a hyphen. -/
def isAllowed (c : Nat) : Bool :=
  isAsciiLetter c || isAsciiDigit c || isJsWhitespace c || c == 45

/-- A string value that is non-empty and at most 2048 code units long. -/
def isBoundedNonEmptyString : JsVal → Bool
  | .str s => !s.isEmpty && decide (s.length ≤ 2048)
  | _ => false

/-- A string value that is non-empty. -/
def isNonEmptyString : JsVal → Bool
  | .str s => !s.isEmpty
  | _ => false

/-- A string value of at most 2048 code units. -/
def isBoundedString : JsVal → Bool
  | .str s => decide (s.length ≤ 2048)
  | _ => false

/-- The simulated-failure flag is set. -/
def faultFlag (env : ProcessEnv) : Bool := env.TEST_DB_ERROR == some (lit "true")

/-- The insert a POST /companies request asks for: the three sanitized body fields, bound
in the order code, name, description. -/
def companyInsert (req : Request) : Query :=
  ⟨.insertCompany, [sanitizeInput (prop req.body "code"),
    sanitizeInput (prop req.body "name"), sanitizeInput (prop req.body "description")]⟩

/-- A POST /companies request that passes the handler's input checks: no path parameter,
a code that sanitizes to a non-empty string of at most 2048 code units, a name that
sanitizes to a non-empty string, and a string description of at most 2048 code units
after sanitization. -/
def passesCompaniesPostChecks (req : Request) : Bool :=
  req.params.isEmpty &&
  isBoundedNonEmptyString (sanitizeInput (prop req.body "code")) &&
  isNonEmptyString (sanitizeInput (prop req.body "name")) &&
  isBoundedString (sanitizeInput (prop req.body "description"))

/-- A GET /companies/:code request that passes the handler's input checks: an empty body
and a code parameter that sanitizes to a non-empty string of at most 2048 code units. -/
def passesCompaniesGetCodeChecks (req : Request) : Bool :=
  req.body.isEmpty && isBoundedNonEmptyString (sanitizeInput (req.param "code"))

/-- A DELETE /companies/:code request that passes the handler's input checks: an empty
body and a code parameter that sanitizes to a non-empty string of at most 2048 code
units. -/
def passesCompaniesDeleteChecks (req : Request) : Bool :=
  req.body.isEmpty && isBoundedNonEmptyString (sanitizeInput (req.param "code"))

/-- A string value that is non-empty and that `Number` converts to a finite number, that
is, for which neither `isNaN` nor `!isFinite` holds (a blank string converts to 0). -/
def isNumericString : JsVal → Bool
  | .str s => !s.isEmpty && !isNaN s && isFinite s
  | _ => false

/-- A GET /invoices/:id request that passes the handler's input checks: an empty body and
an id parameter that sanitizes to a non-empty string denoting a finite number. -/
def passesInvoicesGetIdChecks (req : Request) : Bool :=
  req.body.isEmpty && isNumericString (sanitizeInput (req.param "id"))

/-- A list request (GET /companies, GET /invoices) that passes the handler's input checks:
an empty body and no path parameter. -/
def passesListChecks (req : Request) : Bool := req.body.isEmpty && req.params.isEmpty

/-- A POST /invoices request that passes the handler's input checks: no path parameter, a
comp_code that sanitizes to a non-empty string of at most 2048 code units and an amt that
sanitizes to a non-empty string denoting a finite number. -/
def passesInvoicesPostChecks (req : Request) : Bool :=
  req.params.isEmpty &&
  isBoundedNonEmptyString (sanitizeInput (prop req.body "comp_code")) &&
  isNumericString (sanitizeInput (prop req.body "amt"))

/-- The lookup a GET /companies/:code request asks for. -/
def companyLookup (req : Request) : Query :=
  ⟨.selectCompanyByCode, [sanitizeInput (req.param "code")]⟩

/-- The lookup a GET /invoices/:id request asks for. -/
def invoiceLookup (req : Request) : Query :=
  ⟨.selectInvoiceById, [sanitizeInput (req.param "id")]⟩

/-- The insert a POST /invoices request asks for. -/
def invoiceInsert (req : Request) : Query :=
  ⟨.insertInvoice, [sanitizeInput (prop req.body "comp_code"),
    sanitizeInput (prop req.body "amt")]⟩

/-- Running under the test environment. -/
def isTestEnv (env : ProcessEnv) : Bool := env.NODE_ENV == some (lit "test")

/-- The database-existence check of a bootstrap run. -/
def databaseCheck (env : ProcessEnv) : BootQuery :=
  ⟨lit "postgres", .selectDatabase, [.str (dbName env)]⟩

/-- The table-existence check of a bootstrap run. -/
def tablesCheck (env : ProcessEnv) : BootQuery := ⟨dbName env, .selectTables, []⟩

/-- The CREATE TABLE query of a required table. -/
def createQuery (database : JsString) (table : JsString) : BootQuery :=
  if table = lit "companies" then ⟨database, .createCompanies, []⟩
  else ⟨database, .createInvoices, []⟩

/-- The seed INSERT of a required table. -/
def seedQuery (database : JsString) (table : JsString) : BootQuery :=
  if table = lit "companies" then ⟨database, .insertCompanies, companySeedValues⟩
  else ⟨database, .insertInvoices, invoiceSeedValues⟩

/-- The names a table listing returns. -/
def tableNames (listing : QueryResult) : List JsVal :=
  listing.rows.map (fun row => prop row "tablename")

/-- What the specification expects for one required table: nothing when the listing has
it; otherwise its creation, followed by its seed unless under the test environment. -/
def expectedFor (env : ProcessEnv) (database : JsString) (existing : List JsVal)
    (table : JsString) : List BootQuery :=
  if existing.contains (.str table) then []
  else if isTestEnv env then [createQuery database table]
  else [createQuery database table, seedQuery database table]

/-- What the specification expects after the listing: the required tables in the order
companies, invoices. -/
def expectedStatements (env : ProcessEnv) (database : JsString) (existing : List JsVal) :
    List BootQuery :=
  expectedFor env database existing (lit "companies") ++
    expectedFor env database existing (lit "invoices")

/-- A status of the 500 class. -/
def isServerError (status : Nat) : Bool := decide (500 ≤ status) && decide (status ≤ 599)

/-- The message of the response is a string that contains `sub`. -/
def messageContains (r : HttpResponse) (sub : JsString) : Bool :=
  match r.message with
  | .str m => includes m sub
  | _ => false

/-! ## Sample environments, requests and storage for the concrete runs -/

/-- The environment of the test suite, fault flag unset. -/
def plainEnv : ProcessEnv := ⟨none, some (lit "test")⟩

/-- The environment of the test suite with `TEST_DB_ERROR` set to "true". -/
def faultEnv : ProcessEnv := ⟨some (lit "true"), some (lit "test")⟩

/-- The body of the test "Creates a new company successfully". -/
def newCompanyRequest : Request :=
  ⟨[("code", .str (lit "new-code")), ("name", .str (lit "New Company")),
    ("description", .str (lit "Description"))], []⟩

/-- A company row. -/
def companyRow (code name description : JsVal) : Props :=
  [("code", code), ("name", name), ("description", description)]

/-- A sample storage: a companies table that enforces unique codes. INSERT returns the
created row or throws the uniqueness violation; SELECT by code returns the matching rows;
UPDATE rewrites and returns the matching rows; DELETE removes the matching rows and
returns their codes; every other statement returns no row. -/
def companiesTable : Db (List Props)
  | ⟨.insertCompany, [code, name, description]⟩, rows =>
    if rows.any (fun r => prop r "code" == code) then
      (.error ⟨lit "duplicate key value violates unique constraint \"companies_pkey\""⟩,
        rows)
    else (.ok ⟨[companyRow code name description]⟩, rows ++ [companyRow code name description])
  | ⟨.selectCompanyByCode, [code]⟩, rows =>
    (.ok ⟨rows.filter (fun r => prop r "code" == code)⟩, rows)
  | ⟨.updateCompany, [name, description, code]⟩, rows =>
    (.ok ⟨(rows.filter (fun r => prop r "code" == code)).map
        (fun _ => companyRow code name description)⟩,
      rows.map (fun r => if prop r "code" == code then companyRow code name description
        else r))
  | ⟨.deleteCompany, [code]⟩, rows =>
    (.ok ⟨(rows.filter (fun r => prop r "code" == code)).map (fun r => [("code", prop r "code")])⟩,
      rows.filter (fun r => !(prop r "code" == code)))
  | _, rows => (.ok ⟨[]⟩, rows)

/-- A storage whose every query throws the given error. -/
def failingDb (message : JsString) : Db Unit := fun _ s => (.error ⟨message⟩, s)

/-- A stored company with code "abc". -/
def abcRow : Props := companyRow (.str (lit "abc")) (.str (lit "Abc")) (.str (lit "A"))

/-- The request PUT /companies/abc with a new name and description. -/
def putAbcRequest : Request :=
  ⟨[("name", .str (lit "Abc Inc")), ("description", .str (lit "B"))], [("code", lit "abc")]⟩

/-- The request DELETE (or GET) /companies/abc, without a body. -/
def abcRequest : Request := ⟨[], [("code", lit "abc")]⟩

/-- The request GET /invoices/1, without a body. -/
def invoiceOneRequest : Request := ⟨[], [("id", lit "1")]⟩

/-- A POST /companies body whose name is 2049 letters long. -/
def longNameRequest : Request :=
  ⟨[("code", .str (lit "abc")), ("name", .str (List.replicate 2049 97)),
    ("description", .str (lit "d"))], []⟩

/-- The request PUT /companies/abc with the 2049-letter name. -/
def putLongNameRequest : Request :=
  ⟨[("name", .str (List.replicate 2049 97)), ("description", .str (lit "d"))],
    [("code", lit "abc")]⟩

/-- The request GET /companies (or GET /invoices): no body, no path parameter. -/
def listRequest : Request := ⟨[], []⟩

/-- A POST /invoices body for company "abc" with amount "100". -/
def newInvoiceRequest : Request :=
  ⟨[("comp_code", .str (lit "abc")), ("amt", .str (lit "100"))], []⟩

/-- A storage that answers every query with the given rows. -/
def answeringDb (rows : List Props) : Db Unit := fun _ s => (.ok ⟨rows⟩, s)

/-- An invoice row as the UPDATE and INSERT statements return it. -/
def invoiceRow (id : JsVal) (compCode : JsVal) (amt : JsVal) : Props :=
  [("id", id), ("comp_code", compCode), ("amt", amt), ("paid", .bool false),
    ("add_date", .str (lit "2018-01-01")), ("paid_date", .null)]

/-- The request PUT /invoices/1 with body amt "100". -/
def putInvoiceRequest : Request := ⟨[("amt", .str (lit "100"))], [("id", lit "1")]⟩

/-- The request DELETE /invoices/1 as the router hands it over: the route is `/:code`, so
the path parameter is named `code`. -/
def deleteInvoiceRequest : Request := ⟨[], [("code", lit "1")]⟩

/-- The request GET /invoices/invalid, without a body. -/
def invoiceInvalidRequest : Request := ⟨[], [("id", lit "invalid")]⟩

/-- The request GET /invoices/1! (percent-encoding aside), without a body. -/
def invoiceBangRequest : Request := ⟨[], [("id", lit "1!")]⟩

/-- A value a TEXT column can hold: a string or NULL. -/
def isStringOrNull : JsVal → Bool
  | .str _ => true
  | .null => true
  | _ => false

/-- The row GET /invoices/:id reads for an invoice of company "ibm". -/
def ibmInvoiceRow (description : JsVal) : Props :=
  [("id", .num 1), ("amt", .num 100), ("paid", .bool false),
    ("add_date", .str (lit "2018-01-01")), ("paid_date", .null),
    ("company_code", .str (lit "ibm")), ("company_name", .str (lit "IBM")),
    ("company_description", description)]

/-- The enrichment lookup GET /companies/:code issues for a company row. -/
def invoiceIdsLookup (row : Props) : Query :=
  ⟨.selectInvoiceIdsByCodeLiteral, [prop row "code"]⟩

/-- The stored company of the test "Returns a single company". -/
def googRow : Props := companyRow (.str (lit "goog")) (.str (lit "Google")) (.str (lit "G"))

/-- The request GET /companies/goog, without a body. -/
def googRequest : Request := ⟨[], [("code", lit "goog")]⟩

/-- A sample storage for GET /companies/:code: the company lookup returns the given
companies, the invoice lookup returns the given rows or throws when there are none to
give. -/
def lookupDb (companies : List Props) (invoices : Option (List Props)) : Db Unit
  | ⟨.selectCompanyByCode, _⟩, s => (.ok ⟨companies⟩, s)
  | ⟨.selectInvoiceIdsByCodeLiteral, _⟩, s =>
    match invoices with
    | some rows => (.ok ⟨rows⟩, s)
    | none => (.error ⟨lit "relation \"invoices\" does not exist"⟩, s)
  | _, s => (.ok ⟨[]⟩, s)

/-- A sample catalog: the databases of the server and the tables of each database. -/
structure Catalog where
  databases : List JsString
  tables : List (JsString × JsString)
  deriving DecidableEq

/-- Create a table in the sample catalog: it must not exist yet. -/
def Catalog.addTable (c : Catalog) (database table : JsString) :
    Except DbError QueryResult × Catalog :=
  if (database, table) ∈ c.tables then
    (.error ⟨lit "relation already exists"⟩, c)
  else (.ok ⟨[]⟩, { c with tables := c.tables ++ [(database, table)] })

/-- A sample database server over a catalog. A client connects to "postgres" or to a
database of the catalog; the database check returns the databases with the bound name;
CREATE DATABASE and CREATE TABLE add to the catalog and throw on what exists already
(the invoices table also needs the companies table it references); the listing returns
the tables of the connected database; an INSERT needs its table. -/
def catalogEngine : Engine Catalog where
  connect := fun database c =>
    if database = lit "postgres" ∨ database ∈ c.databases then (.ok (), c)
    else (.error ⟨lit "database does not exist"⟩, c)
  query := fun q c =>
    match q.statement with
    | .selectDatabase =>
      (.ok ⟨(c.databases.filter (fun d => q.params = [.str d])).map
        (fun d => [("datname", .str d)])⟩, c)
    | .createDatabase name =>
      if name ∈ c.databases then (.error ⟨lit "database already exists"⟩, c)
      else (.ok ⟨[]⟩, { c with databases := c.databases ++ [name] })
    | .selectTables =>
      (.ok ⟨(c.tables.filter (fun t => t.1 = q.database)).map
        (fun t => [("tablename", .str t.2)])⟩, c)
    | .createCompanies => c.addTable q.database (lit "companies")
    | .createInvoices =>
      if (q.database, lit "companies") ∈ c.tables then
        c.addTable q.database (lit "invoices")
      else (.error ⟨lit "relation \"companies\" does not exist"⟩, c)
    | .insertCompanies =>
      if (q.database, lit "companies") ∈ c.tables then (.ok ⟨[]⟩, c)
      else (.error ⟨lit "relation \"companies\" does not exist"⟩, c)
    | .insertInvoices =>
      if (q.database, lit "invoices") ∈ c.tables then (.ok ⟨[]⟩, c)
      else (.error ⟨lit "relation \"invoices\" does not exist"⟩, c)

/-- A server with no database but "postgres". -/
def freshCatalog : Catalog := ⟨[], []⟩

/-- The production environment. -/
def productionEnv : ProcessEnv := ⟨none, none⟩

/-- A server on which the production database and both tables exist. -/
def readyCatalog : Catalog :=
  ⟨[lit "biztime"], [(lit "biztime", lit "companies"), (lit "biztime", lit "invoices")]⟩

/-- A server on which the production database has the companies table only. -/
def halfCatalog : Catalog := ⟨[lit "biztime"], [(lit "biztime", lit "companies")]⟩

/-- A sample storage with a companies and an invoices table: the company lookup returns
the companies with the bound code, the invoice lookup runs `invoiceIdsQuery` over the
invoices; every other statement returns no row. -/
def relationalDb : Db (List Props × List Props)
  | ⟨.selectCompanyByCode, [code]⟩, s =>
    (.ok ⟨s.1.filter (fun r => sqlEquals (prop r "code") code)⟩, s)
  | ⟨.selectInvoiceIdsByCodeLiteral, params⟩, s =>
    (.ok ⟨invoiceIdsQuery.run s.2 params⟩, s)
  | _, s => (.ok ⟨[]⟩, s)

/-- A stored company whose code is "code". -/
def codeRow : Props := companyRow (.str (lit "code")) (.str (lit "Code Inc")) (.str (lit "C"))

/-- The request GET /companies/code, without a body. -/
def codeRequest : Request := ⟨[], [("code", lit "code")]⟩

/-- Two stored invoices of the company "apple". -/
def appleInvoices : List Props :=
  [invoiceRow (.num 1) (.str (lit "apple")) (.num 100),
    invoiceRow (.num 2) (.str (lit "apple")) (.num 200)]

/-- A POST /invoices body for company "ibm" with the amount "12.50". -/
def decimalInvoiceRequest : Request :=
  ⟨[("comp_code", .str (lit "ibm")), ("amt", .str (lit "12.50"))], []⟩

/-- A POST /invoices body for company "ibm" with the amount sent as the JSON number 100. -/
def numberInvoiceRequest : Request :=
  ⟨[("comp_code", .str (lit "ibm")), ("amt", .num 100)], []⟩

/-- A sample server that accepts every statement; its listing returns the given
tables. -/
def acceptingEngine (tables : List JsString) : Engine Unit where
  connect := fun _ s => (.ok (), s)
  query := fun q s =>
    (.ok (match q.statement with
      | .selectTables => ⟨tables.map (fun t => [("tablename", JsVal.str t)])⟩
      | _ => ⟨[]⟩), s)

/-- A server on which the production database exists and has no table. -/
def emptyCatalog : Catalog := ⟨[lit "biztime"], []⟩

/-- The request GET /invoices/%20, whose id is one space, without a body. -/
def invoiceBlankRequest : Request := ⟨[], [("id", lit " ")]⟩

/-! ## Lemmas on the string primitives -/

theorem sanitizeClass_test (c : Nat) : sanitizeClass.test c = !isAllowed c := by
  simp only [CharClass.test, sanitizeClass, List.any, ClassItem.test, cu, isAllowed,
    isAsciiLetter, isAsciiDigit, Bool.or_false, if_true]
  have e1 : Char.toNat 'a' = 97 := rfl
  have e2 : Char.toNat 'z' = 122 := rfl
  have e3 : Char.toNat 'A' = 65 := rfl
  have e4 : Char.toNat 'Z' = 90 := rfl
  have e5 : Char.toNat '0' = 48 := rfl
  have e6 : Char.toNat '9' = 57 := rfl
  have e7 : Char.toNat '-' = 45 := rfl
  simp only [e1, e2, e3, e4, e5, e6, e7]
  rw [Bool.eq_iff_iff]
  simp only [Bool.not_eq_true', Bool.or_eq_false_iff, Bool.or_eq_true, Bool.and_eq_true,
    Bool.and_eq_false_iff, decide_eq_true_eq, decide_eq_false_iff_not, beq_iff_eq,
    Bool.not_eq_true, beq_eq_false_iff_ne]
  tauto

theorem nameClass_test (c : Nat) : nameClass.test c = isAllowed c := by
  simp only [CharClass.test, nameClass, List.any, ClassItem.test, cu, isAllowed,
    isAsciiLetter, isAsciiDigit, Bool.or_false]
  have e1 : Char.toNat 'a' = 97 := rfl
  have e2 : Char.toNat 'z' = 122 := rfl
  have e3 : Char.toNat 'A' = 65 := rfl
  have e4 : Char.toNat 'Z' = 90 := rfl
  have e5 : Char.toNat '0' = 48 := rfl
  have e6 : Char.toNat '9' = 57 := rfl
  have e7 : Char.toNat '-' = 45 := rfl
  simp only [e1, e2, e3, e4, e5, e6, e7, Bool.false_eq_true, if_false]
  rw [Bool.eq_iff_iff]
  simp only [Bool.or_eq_true, Bool.and_eq_true, decide_eq_true_eq, beq_iff_eq]
  tauto

theorem codeClass_test (c : Nat) : codeClass.test c = (isAsciiLetter c || isAsciiDigit c) := by
  simp only [CharClass.test, codeClass, List.any, ClassItem.test, cu,
    isAsciiLetter, isAsciiDigit, Bool.or_false]
  have e1 : Char.toNat 'a' = 97 := rfl
  have e2 : Char.toNat 'z' = 122 := rfl
  have e3 : Char.toNat 'A' = 65 := rfl
  have e4 : Char.toNat 'Z' = 90 := rfl
  have e5 : Char.toNat '0' = 48 := rfl
  have e6 : Char.toNat '9' = 57 := rfl
  simp only [e1, e2, e3, e4, e5, e6, Bool.false_eq_true, if_false]
  rw [Bool.eq_iff_iff]
  simp only [Bool.or_eq_true, Bool.and_eq_true, decide_eq_true_eq]
  tauto

theorem replaceAll_sanitize (s : JsString) :
    replaceAll sanitizeClass [] s = s.filter isAllowed := by
  induction s with
  | nil => rfl
  | cons c cs ih =>
    simp only [replaceAll, sanitizeClass_test, ih, List.filter_cons]
    cases isAllowed c <;> simp

theorem matchRepeat_bounded (k : CharClass) (lo h : Nat) (s : JsString) (n : Nat) :
    matchRepeat k lo (some h) n s = true ↔
      lo ≤ n + s.length ∧ (s ≠ [] → n + s.length ≤ h) ∧ ∀ c ∈ s, k.test c = true := by
  induction s generalizing n with
  | nil => simp [matchRepeat]
  | cons c cs ih =>
    simp only [matchRepeat, Bool.and_eq_true, decide_eq_true_eq, ih, List.length_cons,
      List.mem_cons, forall_eq_or_imp, ne_eq, reduceCtorEq, not_false_eq_true, true_implies]
    constructor
    · rintro ⟨⟨h1, h2⟩, h3, h4, h5⟩
      refine ⟨by omega, ?_, h2, h5⟩
      by_cases hc : cs = []
      · subst hc; simp; omega
      · have := h4 hc; omega
    · rintro ⟨h1, h2, h3, h4⟩
      exact ⟨⟨by omega, h3⟩, by omega, fun _ => by omega, h4⟩

theorem matchRepeat_open (k : CharClass) (lo : Nat) (s : JsString) (n : Nat) :
    matchRepeat k lo none n s = true ↔ lo ≤ n + s.length ∧ ∀ c ∈ s, k.test c = true := by
  induction s generalizing n with
  | nil => simp [matchRepeat]
  | cons c cs ih =>
    simp only [matchRepeat, Bool.and_eq_true, ih, List.length_cons,
      List.mem_cons, forall_eq_or_imp, Bool.true_and]
    constructor
    · rintro ⟨h1, h2, h3⟩
      exact ⟨by omega, h1, h3⟩
    · rintro ⟨h1, h2, h3⟩
      exact ⟨h2, by omega, h3⟩

theorem dropWhile_all (p : Nat → Bool) (l : List Nat) :
    (∀ x ∈ l.dropWhile p, p x = true) ↔ ∀ x ∈ l, p x = true := by
  induction l with
  | nil => simp
  | cons a as ih =>
    by_cases ha : p a = true
    · simp [List.dropWhile_cons, ha, ih]
    · simp [List.dropWhile_cons, ha]

theorem trim_eq_nil (s : JsString) : trim s = [] ↔ ∀ c ∈ s, isJsWhitespace c = true := by
  unfold trim
  rw [List.reverse_eq_nil_iff, List.dropWhile_eq_nil_iff]
  simp only [List.mem_reverse]
  exact dropWhile_all _ _

theorem validateInput_str_code (v : JsString) :
    validateInput (.str v) (lit "code") =
      if v = [] ∨ trim v = [] then
        .ok (.invalid (lit "Invalid " ++ lit "code" ++ lit ": cannot be empty"))
      else if testAnchored codeClass 3 (some 10) v = true then .ok .valid
      else .ok (.invalid (lit "Invalid code: must be 3-10 alphanumeric characters")) := by
  have h1 : (lit "code" == lit "code") = true := by decide
  cases v with
  | nil => simp [validateInput, JsVal.truthy]
  | cons c cs =>
    simp only [validateInput, JsVal.truthy, List.isEmpty_cons, Bool.not_false,
      Bool.not_true, Bool.false_eq_true, if_false, h1, if_true, reduceCtorEq, false_or,
      beq_iff_eq, Bool.not_eq_true']
    split_ifs <;> simp_all

theorem validateInput_str_name (v : JsString) :
    validateInput (.str v) (lit "name") =
      if v = [] ∨ trim v = [] then
        .ok (.invalid (lit "Invalid " ++ lit "name" ++ lit ": cannot be empty"))
      else if testAnchored nameClass 1 none v = true then .ok .valid
      else .ok (.invalid
        (lit "Invalid name: must contain only letters, numbers, spaces, and hyphens")) := by
  have h1 : (lit "name" == lit "code") = false := by decide
  have h2 : (lit "name" == lit "name") = true := by decide
  cases v with
  | nil => simp [validateInput, JsVal.truthy]
  | cons c cs =>
    simp only [validateInput, JsVal.truthy, List.isEmpty_cons, Bool.not_false,
      Bool.not_true, Bool.false_eq_true, if_false, h1, h2, if_true, reduceCtorEq, false_or,
      beq_iff_eq, Bool.not_eq_true']
    split_ifs <;> simp_all

theorem whitespace_not_alnum (c : Nat) (h : (isAsciiLetter c || isAsciiDigit c) = true) :
    isJsWhitespace c = false := by
  simp only [isAsciiLetter, isAsciiDigit, Bool.or_eq_true, Bool.and_eq_true,
    decide_eq_true_eq] at h
  simp only [isJsWhitespace, Bool.or_eq_false_iff, beq_eq_false_iff_ne, ne_eq,
    Bool.and_eq_false_iff, decide_eq_false_iff_not]
  omega

/-! ## Lemmas on the handlers -/

theorem prop_nil (k : String) : prop [] k = .undefined := rfl

theorem faultFlag_false (env : ProcessEnv) (h : faultFlag env = false) :
    ¬ env.TEST_DB_ERROR = some (lit "true") := by
  simpa [faultFlag] using h

theorem hookedQuery_plain {σ : Type} (env : ProcessEnv) (db : Db σ) (q : Query) (s : σ)
    (h : faultFlag env = false) :
    hookedQuery env db q s = ((db q s).1, [q], (db q s).2) := by
  simp [hookedQuery, faultFlag_false env h]

theorem hookedQuery_fault {σ : Type} (env : ProcessEnv) (db : Db σ) (q : Query) (s : σ)
    (h : faultFlag env = true) :
    hookedQuery env db q s = (.error ⟨lit "Simulated database error"⟩, [], s) := by
  have h1 : env.TEST_DB_ERROR = some (lit "true") := by simpa [faultFlag] using h
  simp [hookedQuery, h1]

/-- The handler of POST /companies once the input checks are passed: only the guarded
INSERT and the reading of its result remain. -/
theorem companiesPost_of_checks {σ : Type} (env : ProcessEnv) (db : Db σ) (req : Request)
    (s : σ) (h : passesCompaniesPostChecks req = true) :
    companiesPost env db req s =
      match hookedQuery env db (companyInsert req) s with
      | (.error dbError, issued, s1) =>
        if includes dbError.message
            (lit "duplicate key value violates unique constraint") then
          ⟨.next ⟨lit "Company with duplicate code already exists!", some 400⟩, issued, s1⟩
        else
          ⟨.next ⟨lit "Failed to create company: " ++ dbError.message, none⟩, issued, s1⟩
      | (.ok newCompany, issued, s1) =>
        ⟨.json 201 (.obj [("company", newCompany.firstRow)]), issued, s1⟩ := by
  simp only [passesCompaniesPostChecks, Bool.and_eq_true, List.isEmpty_iff] at h
  obtain ⟨⟨⟨hp, hc⟩, hn⟩, hd⟩ := h
  have hb : req.body.length ≠ 0 := by
    intro h0
    rw [List.length_eq_zero.mp h0] at hc
    simp [prop, sanitizeInput, isBoundedNonEmptyString] at hc
  unfold companiesPost companyInsert
  cases hcv : sanitizeInput (prop req.body "code") <;> rw [hcv] at hc <;>
    simp [isBoundedNonEmptyString] at hc
  cases hnv : sanitizeInput (prop req.body "name") <;> rw [hnv] at hn <;>
    simp [isNonEmptyString] at hn
  cases hdv : sanitizeInput (prop req.body "description") <;> rw [hdv] at hd <;>
    simp [isBoundedString] at hd
  rename_i code name description
  have hc2 : ¬ code.length > 2048 := by omega
  have hd2 : ¬ description.length > 2048 := by omega
  simp only [hb, hp, List.length_nil, ne_eq, not_true_eq_false, if_false, hc.1, hn,
    List.length_eq_zero, hc2, hd2, QueryResult.length, reduceCtorEq]

theorem sanitizeInput_replicate_a (n : Nat) :
    sanitizeInput (.str (List.replicate n 97)) = .str (List.replicate n 97) := by
  simp only [sanitizeInput, replaceAll_sanitize, JsVal.str.injEq, List.filter_eq_self]
  intro a ha
  rw [List.eq_of_mem_replicate ha]
  decide

theorem hookedQuery_error_issued {σ : Type} (env : ProcessEnv) (db : Db σ) (q : Query)
    (s : σ) : (hookedQuery env db q s).2.1 = [] ∨ (hookedQuery env db q s).2.1 = [q] := by
  unfold hookedQuery
  split_ifs
  · exact Or.inl rfl
  · exact Or.inr rfl

theorem companiesGet_of_error {σ : Type} (env : ProcessEnv) (db : Db σ) (req : Request)
    (s : σ) (e : DbError) (h : passesListChecks req = true)
    (he : (hookedQuery env db ⟨.selectCompanies, []⟩ s).1 = .error e) :
    (companiesGet env db req s).outcome =
      .next ⟨lit "Failed to get companies: " ++ e.message, none⟩ := by
  simp only [passesListChecks, Bool.and_eq_true, List.isEmpty_iff] at h
  unfold companiesGet
  rcases hq : hookedQuery env db ⟨.selectCompanies, []⟩ s with ⟨r, issued, s1⟩
  rw [hq] at he
  simp only at he
  simp [h.1, h.2, he]

theorem invoicesGet_of_error {σ : Type} (env : ProcessEnv) (db : Db σ) (req : Request)
    (s : σ) (e : DbError) (h : passesListChecks req = true)
    (he : (hookedQuery env db ⟨.selectInvoices, []⟩ s).1 = .error e) :
    (invoicesGet env db req s).outcome =
      .next ⟨lit "Failed to read invoices: " ++ e.message, none⟩ := by
  simp only [passesListChecks, Bool.and_eq_true, List.isEmpty_iff] at h
  unfold invoicesGet
  rcases hq : hookedQuery env db ⟨.selectInvoices, []⟩ s with ⟨r, issued, s1⟩
  rw [hq] at he
  simp only at he
  simp [h.1, h.2, he]

theorem companiesGetCode_of_error {σ : Type} (env : ProcessEnv) (db : Db σ) (req : Request)
    (s : σ) (e : DbError) (h : passesCompaniesGetCodeChecks req = true)
    (he : (hookedQuery env db (companyLookup req) s).1 = .error e) :
    (companiesGetCode env db req s).outcome =
      .next ⟨lit "Failed to get company: " ++ e.message, none⟩ := by
  simp only [passesCompaniesGetCodeChecks, Bool.and_eq_true, List.isEmpty_iff] at h
  obtain ⟨hb, hc⟩ := h
  unfold companyLookup at he
  unfold companiesGetCode
  cases hl : req.params.lookup "code" with
  | none => simp [Request.param, hl, sanitizeInput, isBoundedNonEmptyString] at hc
  | some code =>
    have hp : req.params.length ≠ 0 := by
      intro h0
      rw [List.length_eq_zero.mp h0] at hl
      simp at hl
    simp only [Request.param, hl] at hc he
    cases hcv : sanitizeInput (.str code) <;> rw [hcv] at hc <;>
      simp [isBoundedNonEmptyString] at hc
    rename_i searched
    rw [hcv] at he
    have h2 : ¬ searched.length > 2048 := by omega
    rcases hq : hookedQuery env db ⟨.selectCompanyByCode, [.str searched]⟩ s with
      ⟨r, issued, s1⟩
    rw [hq] at he
    simp only at he
    simp [hb, hp, hcv, hc.1, h2, hq, he]

theorem invoicesGetId_of_error {σ : Type} (env : ProcessEnv) (db : Db σ) (req : Request)
    (s : σ) (e : DbError) (h : passesInvoicesGetIdChecks req = true)
    (he : (hookedQuery env db (invoiceLookup req) s).1 = .error e) :
    ∃ id, sanitizeInput (req.param "id") = .str id ∧
      (invoicesGetId env db req s).outcome =
        .next ⟨lit "Failed to retrieve Invoice for ID " ++ id ++ lit " - " ++ e.message,
          none⟩ := by
  simp only [passesInvoicesGetIdChecks, Bool.and_eq_true, List.isEmpty_iff] at h
  obtain ⟨hb, hc⟩ := h
  have hp : req.params.length ≠ 0 := by
    intro h0
    rw [Request.param, List.length_eq_zero.mp h0] at hc
    simp [sanitizeInput, isNumericString] at hc
  unfold invoiceLookup at he
  unfold invoicesGetId
  cases hcv : sanitizeInput (req.param "id") <;> rw [hcv] at hc <;>
    simp [isNumericString] at hc
  rename_i searched
  rw [hcv] at he
  rcases hq : hookedQuery env db ⟨.selectInvoiceById, [.str searched]⟩ s with
    ⟨r, issued, s1⟩
  rw [hq] at he
  simp only at he
  refine ⟨searched, rfl, ?_⟩
  simp [hb, hp, hc.1.1, hc.1.2, hc.2, hq, he]

theorem invoicesPost_of_error {σ : Type} (env : ProcessEnv) (db : Db σ) (req : Request)
    (s : σ) (e : DbError) (h : passesInvoicesPostChecks req = true)
    (he : (hookedQuery env db (invoiceInsert req) s).1 = .error e) :
    (invoicesPost env db req s).outcome =
      .next ⟨lit "Failed to create invoice: " ++ e.message, none⟩ := by
  simp only [passesInvoicesPostChecks, Bool.and_eq_true, List.isEmpty_iff] at h
  obtain ⟨⟨hp, hc⟩, ha⟩ := h
  have hb : req.body.length ≠ 0 := by
    intro h0
    rw [List.length_eq_zero.mp h0] at hc
    simp [prop, sanitizeInput, isBoundedNonEmptyString] at hc
  unfold invoiceInsert at he
  unfold invoicesPost
  cases hcv : sanitizeInput (prop req.body "comp_code") <;> rw [hcv] at hc <;>
    simp [isBoundedNonEmptyString] at hc
  cases hav : sanitizeInput (prop req.body "amt") <;> rw [hav] at ha <;>
    simp [isNumericString] at ha
  rename_i code amt
  rw [hcv, hav] at he
  have h2 : ¬ code.length > 2048 := by omega
  rcases hq : hookedQuery env db ⟨.insertInvoice, [.str code, .str amt]⟩ s with
    ⟨r, issued, s1⟩
  rw [hq] at he
  simp only at he
  simp [hb, hp, hc.1, h2, ha.1.1, ha.1.2, ha.2, hq, he]

theorem isFinite_of_isNaN (a : JsString) (h : isNaN a = true) : isFinite a = false := by
  simp only [isNaN, beq_iff_eq] at h
  simp [isFinite, h]

/-- The invoice UPDATE handler rejects every request before its storage call: a string
cannot be both `NaN` and finite. -/
theorem invoicesPut_rejects {σ : Type} (env : ProcessEnv) (db : Db σ) (req : Request)
    (s : σ) :
    (invoicesPut env db req s).issued = [] ∧
    (respond (invoicesPut env db req s).outcome).status = 400 := by
  unfold invoicesPut
  split_ifs
  · exact ⟨rfl, rfl⟩
  · exact ⟨rfl, rfl⟩
  · split
    · split_ifs
      · exact ⟨rfl, rfl⟩
      · exact ⟨rfl, rfl⟩
      · split
        · rename_i amt _
          split_ifs with h1 h2
          · exact ⟨rfl, rfl⟩
          · exact ⟨rfl, rfl⟩
          · exfalso
            simp only [Bool.or_eq_true, Bool.not_eq_true', not_or, Bool.not_eq_false] at h2
            have := isFinite_of_isNaN amt h2.1
            rw [h2.2] at this
            exact absurd this (by decide)
        · exact ⟨rfl, rfl⟩
    · exact ⟨rfl, rfl⟩

/-- The invoice DELETE handler is registered on `/:code` and reads `req.params.id`: a
request without an `id` parameter is answered from the outer `catch` with 500, or with 400
when it has a body or no parameter at all, and no query is issued. -/
theorem invoicesDelete_without_id {σ : Type} (env : ProcessEnv) (db : Db σ) (req : Request)
    (s : σ) (h : req.params.lookup "id" = none) :
    (invoicesDelete env db req s).issued = [] ∧
    ((respond (invoicesDelete env db req s).outcome).status = 400 ∨
      (respond (invoicesDelete env db req s).outcome).status = 500) := by
  unfold invoicesDelete
  split_ifs
  · exact ⟨rfl, Or.inl rfl⟩
  · exact ⟨rfl, Or.inl rfl⟩
  · rw [h]
    exact ⟨rfl, Or.inr rfl⟩

theorem prop_setProp_same (row : Props) (k : String) (v : JsVal) :
    prop (setProp row k v) k = v := by
  induction row with
  | nil => simp [setProp, prop, List.lookup]
  | cons p rest ih =>
    obtain ⟨k0, v0⟩ := p
    by_cases h : k0 = k
    · subst h
      simp [setProp, prop, List.lookup]
    · have h2 : (k == k0) = false := by
        simp only [beq_eq_false_iff_ne, ne_eq]
        exact fun e => h e.symm
      simp only [setProp, h, if_false, prop, List.lookup, h2]
      exact ih

theorem prop_setProp_other (row : Props) (k j : String) (v : JsVal) (hne : j ≠ k) :
    prop (setProp row k v) j = prop row j := by
  induction row with
  | nil =>
    have h2 : (j == k) = false := by simpa using hne
    simp [setProp, prop, List.lookup, h2]
  | cons p rest ih =>
    obtain ⟨k0, v0⟩ := p
    by_cases h : k0 = k
    · subst h
      have h2 : (j == k0) = false := by simpa using hne
      simp [setProp, prop, List.lookup, h2]
    · simp only [setProp, h, if_false, prop, List.lookup]
      cases hj : (j == k0)
      · exact ih
      · rfl

/-! ## Lemmas on the bootstrap -/

theorem runQuery_issued {σ : Type} (eng : Engine σ) (q : BootQuery) (s : σ) :
    (runQuery eng q s).issued = [q] := by
  unfold runQuery
  split <;> rfl

theorem createTable_issued {σ : Type} (eng : Engine σ) (database table : JsString) (s : σ) :
    (createTable eng database table s).issued <+: [createQuery database table] ∧
    ((createTable eng database table s).result = .ok () →
      (createTable eng database table s).issued = [createQuery database table]) := by
  unfold createTable createQuery
  split_ifs with h1 h2
  · simp [runQuery_issued]
  · simp [runQuery_issued]
  · simp

theorem preseedFunction_test {σ : Type} (env : ProcessEnv) (eng : Engine σ)
    (database table : JsString) (s : σ) (h : isTestEnv env = true) :
    preseedFunction env eng database table s = ⟨.ok (), [], s⟩ := by
  have h1 : env.NODE_ENV = some (lit "test") := by simpa [isTestEnv] using h
  simp [preseedFunction, h1]

theorem preseedFunction_issued {σ : Type} (env : ProcessEnv) (eng : Engine σ)
    (database table : JsString) (s : σ) (h : isTestEnv env = false) :
    (preseedFunction env eng database table s).issued <+: [seedQuery database table] ∧
    ((preseedFunction env eng database table s).result = .ok () →
      (preseedFunction env eng database table s).issued = [seedQuery database table]) := by
  have h1 : ¬ env.NODE_ENV = some (lit "test") := by simpa [isTestEnv] using h
  unfold preseedFunction seedQuery
  simp only [h1, if_false]
  split_ifs with h2 h3
  · simp [runQuery_issued]
  · simp [runQuery_issued]
  · simp

theorem ensureTables_expected {σ : Type} (env : ProcessEnv) (eng : Engine σ)
    (database : JsString) (existing : List JsVal) (tables : List JsString) (s : σ) :
    (ensureTables env eng database existing tables s).issued <+:
      tables.flatMap (expectedFor env database existing) ∧
    ((ensureTables env eng database existing tables s).result = .ok () →
      (ensureTables env eng database existing tables s).issued =
        tables.flatMap (expectedFor env database existing)) := by
  induction tables generalizing s with
  | nil => simp [ensureTables]
  | cons t rest ih =>
    rw [ensureTables]
    by_cases hc : existing.contains (.str t) = true
    · simp only [hc, if_true, List.flatMap_cons, expectedFor, List.nil_append]
      exact ih s
    · simp only [hc, Bool.false_eq_true, if_false, List.flatMap_cons, expectedFor]
      have hcreate := createTable_issued eng database t s
      rcases hct : createTable eng database t s with ⟨res, created, s1⟩
      rw [hct] at hcreate
      cases res with
      | error e =>
        simp only at hcreate ⊢
        refine ⟨hcreate.1.trans ?_, fun h => absurd h (by simp)⟩
        split_ifs <;> simp [List.prefix_iff_eq_append]
      | ok u =>
        have hcr : created = [createQuery database t] := hcreate.2 rfl
        subst hcr
        simp only
        cases htest : isTestEnv env with
        | true =>
          rw [preseedFunction_test env eng database t s1 htest]
          simp only [if_true, List.append_nil]
          have := ih s1
          rcases hr : ensureTables env eng database existing rest s1 with ⟨r, later, s3⟩
          rw [hr] at this
          simp only at this ⊢
          exact ⟨by simpa [List.prefix_cons_inj] using this.1,
            fun h => by simp [this.2 h]⟩
        | false =>
          have hseed := preseedFunction_issued env eng database t s1 htest
          rcases hp : preseedFunction env eng database t s1 with ⟨pres, seeded, s2⟩
          rw [hp] at hseed
          simp only [Bool.false_eq_true, if_false]
          cases pres with
          | error e =>
            simp only at hseed ⊢
            refine ⟨?_, fun h => absurd h (by simp)⟩
            have h1 : [createQuery database t] ++ seeded <+:
                [createQuery database t] ++ [seedQuery database t] :=
              (List.prefix_append_right_inj _).mpr hseed.1
            exact h1.trans (by simp [List.prefix_iff_eq_append])
          | ok u2 =>
            have hsd : seeded = [seedQuery database t] := hseed.2 rfl
            subst hsd
            simp only
            have := ih s2
            rcases hr : ensureTables env eng database existing rest s2 with ⟨r, later, s3⟩
            rw [hr] at this
            simp only at this ⊢
            exact ⟨by simpa [List.prefix_cons_inj] using this.1,
              fun h => by simp [this.2 h]⟩

theorem expectedStatements_eq (env : ProcessEnv) (database : JsString)
    (existing : List JsVal) :
    requiredTables.flatMap (expectedFor env database existing) =
      expectedStatements env database existing := by
  simp [requiredTables, expectedStatements, List.flatMap_cons]

theorem checkTables_expected {σ : Type} (env : ProcessEnv) (eng : Engine σ) (s s1 s2 : σ)
    (listing : QueryResult) (hconn : eng.connect (dbName env) s = (.ok (), s1))
    (hlist : eng.query (tablesCheck env) s1 = (.ok listing, s2)) :
    (checkTables env eng s).issued <+:
      tablesCheck env :: expectedStatements env (dbName env) (tableNames listing) ∧
    ((checkTables env eng s).result = .ok () →
      (checkTables env eng s).issued =
        tablesCheck env :: expectedStatements env (dbName env) (tableNames listing)) := by
  unfold tablesCheck at hlist
  unfold checkTables
  rw [hconn]
  simp only [hlist]
  have h := ensureTables_expected env eng (dbName env) (tableNames listing) requiredTables s2
  rw [expectedStatements_eq] at h
  unfold tableNames at h
  rcases hr : ensureTables env eng (dbName env)
    (listing.rows.map (fun row => prop row "tablename")) requiredTables s2 with ⟨r, later, s3⟩
  rw [hr] at h
  simp only at h ⊢
  exact ⟨by simpa [tablesCheck, tableNames, List.prefix_cons_inj] using h.1,
    fun hok => by simp [tablesCheck, tableNames, h.2 hok]⟩

theorem mem_expected_companies (env : ProcessEnv) (database : JsString)
    (existing : List JsVal) (q : BootQuery) :
    q ∈ tablesCheck env :: expectedStatements env database existing →
    (q = createQuery database (lit "companies") →
      existing.contains (.str (lit "companies")) = false) ∧
    (q = seedQuery database (lit "companies") →
      existing.contains (.str (lit "companies")) = false ∧ isTestEnv env = false) ∧
    (q = createQuery database (lit "invoices") →
      existing.contains (.str (lit "invoices")) = false) ∧
    (q = seedQuery database (lit "invoices") →
      existing.contains (.str (lit "invoices")) = false ∧ isTestEnv env = false) ∧
    (isTestEnv env = true →
      q.statement ≠ .insertCompanies ∧ q.statement ≠ .insertInvoices) := by
  have hne : ¬ lit "invoices" = lit "companies" := by decide
  intro hq
  cases hA : existing.contains (.str (lit "companies")) <;>
    cases hB : existing.contains (.str (lit "invoices")) <;>
    cases hT : isTestEnv env <;>
    simp only [expectedStatements, expectedFor, createQuery, seedQuery, tablesCheck, hA, hB,
      hT, hne, if_true, if_false, Bool.false_eq_true, List.append_nil, List.nil_append,
      List.cons_append, List.mem_cons, List.not_mem_nil, or_false] at hq <;>
    (try casesm* _ ∨ _) <;> subst_vars <;>
    simp [createQuery, seedQuery, hA, hB, hne]

theorem mem_expected_of_absent (env : ProcessEnv) (database : JsString)
    (existing : List JsVal) :
    (existing.contains (.str (lit "companies")) = false →
      createQuery database (lit "companies") ∈ expectedStatements env database existing) ∧
    (existing.contains (.str (lit "companies")) = false → isTestEnv env = false →
      seedQuery database (lit "companies") ∈ expectedStatements env database existing) ∧
    (existing.contains (.str (lit "invoices")) = false →
      createQuery database (lit "invoices") ∈ expectedStatements env database existing) ∧
    (existing.contains (.str (lit "invoices")) = false → isTestEnv env = false →
      seedQuery database (lit "invoices") ∈ expectedStatements env database existing) := by
  have hne : ¬ lit "invoices" = lit "companies" := by decide
  refine ⟨?_, ?_, ?_, ?_⟩
  · intro hA
    have hA1 : JsVal.str (lit "companies") ∉ existing := by simpa using hA
    cases hT : isTestEnv env <;> simp [expectedStatements, expectedFor, hA1, hT]
  · intro hA hT
    have hA1 : JsVal.str (lit "companies") ∉ existing := by simpa using hA
    simp [expectedStatements, expectedFor, hA1, hT]
  · intro hB
    have hB1 : JsVal.str (lit "invoices") ∉ existing := by simpa using hB
    cases hT : isTestEnv env <;> simp [expectedStatements, expectedFor, hB1, hT]
  · intro hB hT
    have hB1 : JsVal.str (lit "invoices") ∉ existing := by simpa using hB
    simp [expectedStatements, expectedFor, hB1, hT]

theorem checkTables_test_no_seed {σ : Type} (env : ProcessEnv) (eng : Engine σ) (s : σ)
    (hT : isTestEnv env = true) (q : BootQuery) (hq : q ∈ (checkTables env eng s).issued) :
    q.statement ≠ .insertCompanies ∧ q.statement ≠ .insertInvoices := by
  rcases hc : eng.connect (dbName env) s with ⟨r, s1⟩
  cases r with
  | error e => simp [checkTables, hc] at hq
  | ok u =>
    rcases hl : eng.query (tablesCheck env) s1 with ⟨r2, s2⟩
    cases r2 with
    | error e =>
      unfold tablesCheck at hl
      simp only [checkTables, hc, hl, List.mem_singleton] at hq
      subst hq
      simp
    | ok listing =>
      have h := (checkTables_expected env eng s s1 s2 listing hc hl).1.subset hq
      exact (mem_expected_companies env (dbName env) (tableNames listing) q h).2.2.2.2 hT

theorem bootstrap_of_existing {σ : Type} (env : ProcessEnv) (eng : Engine σ)
    (s s1 s2 s3 s4 : σ) (found listing : QueryResult)
    (h1 : eng.connect (lit "postgres") s = (.ok (), s1))
    (h2 : eng.query (databaseCheck env) s1 = (.ok found, s2))
    (hfound : found.rows ≠ [])
    (h3 : eng.connect (dbName env) s2 = (.ok (), s3))
    (h4 : eng.query (tablesCheck env) s3 = (.ok listing, s4))
    (h5 : ∀ t ∈ requiredTables, (tableNames listing).contains (.str t) = true) :
    (bootstrap env eng s).issued = [databaseCheck env, tablesCheck env] ∧
    (bootstrap env eng s).result = .ok () ∧
    (bootstrap env eng s).store = s4 := by
  unfold databaseCheck at h2
  unfold tablesCheck at h4
  have hlen : ¬ found.rows.length = 0 := by
    rw [List.length_eq_zero]
    exact hfound
  have hA := h5 (lit "companies") (by simp [requiredTables])
  have hB := h5 (lit "invoices") (by simp [requiredTables])
  unfold tableNames at hA hB
  simp only [bootstrap, createDatabaseIfNotExists, h1, h2, hlen, if_false, checkTables, h3,
    h4, requiredTables, ensureTables, hA, hB, if_true, databaseCheck, tablesCheck]
  refine ⟨?_, ?_, ?_⟩ <;> first | rfl | trivial

/-! ## Lemmas on the sample catalog -/

theorem catalog_createDatabase (env : ProcessEnv) (c : Catalog) :
    (createDatabaseIfNotExists env catalogEngine c).result = .ok () →
    dbName env ∈ (createDatabaseIfNotExists env catalogEngine c).store.databases ∧
    (createDatabaseIfNotExists env catalogEngine c).store.tables = c.tables := by
  by_cases hin : dbName env ∈ c.databases
  · have hex : ¬ ∀ a ∈ c.databases, ¬ dbName env = a := fun h => h _ hin rfl
    intro _
    simp [createDatabaseIfNotExists, catalogEngine, hex, hin]
  · have hall : ∀ a ∈ c.databases, ¬ dbName env = a := by
      rintro a ha rfl
      exact hin ha
    intro _
    simp only [createDatabaseIfNotExists, catalogEngine, List.length_map,
      List.length_eq_zero, List.filter_eq_nil_iff, List.cons.injEq, JsVal.str.injEq,
      and_true, decide_eq_true_eq, true_or, if_true, hin, if_false]
    rw [if_pos hall]
    simp

theorem catalog_createTable (database table : JsString) (c : Catalog)
    (ht : table ∈ requiredTables) :
    (createTable catalogEngine database table c).result = .ok () →
    (createTable catalogEngine database table c).store.tables =
      c.tables ++ [(database, table)] ∧
    (createTable catalogEngine database table c).store.databases = c.databases := by
  have hne : ¬ lit "invoices" = lit "companies" := by decide
  simp only [requiredTables, List.mem_cons, List.mem_singleton, List.not_mem_nil,
    or_false] at ht
  rcases ht with rfl | rfl
  · simp only [createTable, if_true, runQuery, catalogEngine, Catalog.addTable]
    split_ifs <;> simp
  · simp only [createTable, hne, if_false, if_true, runQuery, catalogEngine,
      Catalog.addTable]
    split_ifs <;> simp

theorem catalog_preseed (env : ProcessEnv) (database table : JsString) (c : Catalog) :
    (preseedFunction env catalogEngine database table c).store = c := by
  simp only [preseedFunction, runQuery, catalogEngine]
  split_ifs <;> rfl

theorem catalog_ensureTables (env : ProcessEnv) (database : JsString)
    (existing : List JsVal) (tables : List JsString)
    (hsub : ∀ t ∈ tables, t ∈ requiredTables) (c : Catalog)
    (hex : ∀ t, JsVal.str t ∈ existing → (database, t) ∈ c.tables) :
    (ensureTables env catalogEngine database existing tables c).result = .ok () →
    (∀ t ∈ tables,
      (database, t) ∈ (ensureTables env catalogEngine database existing tables c).store.tables) ∧
    (∀ p ∈ c.tables,
      p ∈ (ensureTables env catalogEngine database existing tables c).store.tables) ∧
    (ensureTables env catalogEngine database existing tables c).store.databases =
      c.databases := by
  induction tables generalizing c with
  | nil =>
    intro _
    simp [ensureTables]
  | cons t rest ih =>
    have hrest : ∀ u ∈ rest, u ∈ requiredTables :=
      fun u hu => hsub u (List.mem_cons_of_mem _ hu)
    rw [ensureTables]
    by_cases hc : existing.contains (.str t) = true
    · simp only [hc, if_true]
      intro hok
      obtain ⟨a, b, d⟩ := ih hrest c hex hok
      refine ⟨?_, b, d⟩
      intro u hu
      rcases List.mem_cons.mp hu with rfl | hu
      · exact b _ (hex _ (by simpa using hc))
      · exact a u hu
    · simp only [hc, Bool.false_eq_true, if_false]
      have hct := catalog_createTable database t c (hsub t (List.mem_cons_self _ _))
      rcases hcr : createTable catalogEngine database t c with ⟨res, created, c1⟩
      rw [hcr] at hct
      cases res with
      | error e => intro h; exact absurd h (by simp)
      | ok u =>
        obtain ⟨htab, hdb⟩ := hct rfl
        simp only at htab hdb ⊢
        have hps := catalog_preseed env database t c1
        rcases hp : preseedFunction env catalogEngine database t c1 with ⟨pres, seeded, c2⟩
        rw [hp] at hps
        simp only at hps
        subst hps
        cases pres with
        | error e => intro h; exact absurd h (by simp)
        | ok u2 =>
          simp only
          have hex2 : ∀ v, JsVal.str v ∈ existing → (database, v) ∈ c2.tables := by
            intro v hv
            rw [htab]
            exact List.mem_append_left _ (hex v hv)
          have hih := ih hrest c2 hex2
          rcases hr : ensureTables env catalogEngine database existing rest c2 with
            ⟨r, later, c3⟩
          rw [hr] at hih
          simp only at hih ⊢
          intro hok
          obtain ⟨a, b, d⟩ := hih hok
          refine ⟨?_, ?_, d.trans hdb⟩
          · intro v hv
            rcases List.mem_cons.mp hv with rfl | hv
            · exact b _ (by rw [htab]; simp)
            · exact a v hv
          · intro q hq
            exact b q (by rw [htab]; exact List.mem_append_left _ hq)

theorem catalog_listing_mem (c : Catalog) (database t : JsString) :
    JsVal.str t ∈ tableNames
        ⟨(c.tables.filter (fun p => p.1 = database)).map
          (fun p => [("tablename", JsVal.str p.2)])⟩ ↔
      (database, t) ∈ c.tables := by
  simp only [tableNames, List.map_map, List.mem_map, List.mem_filter, decide_eq_true_eq,
    Function.comp_apply, prop, List.lookup, beq_self_eq_true, Option.getD_some,
    JsVal.str.injEq]
  constructor
  · rintro ⟨⟨d, u⟩, ⟨hp, rfl⟩, rfl⟩
    exact hp
  · intro h
    exact ⟨(database, t), ⟨h, rfl⟩, rfl⟩

theorem catalog_checkTables (env : ProcessEnv) (c : Catalog)
    (hdb : dbName env ∈ c.databases) :
    (checkTables env catalogEngine c).result = .ok () →
    (∀ t ∈ requiredTables, (dbName env, t) ∈ (checkTables env catalogEngine c).store.tables) ∧
    (checkTables env catalogEngine c).store.databases = c.databases := by
  have hconn : catalogEngine.connect (dbName env) c = (.ok (), c) := by
    simp [catalogEngine, hdb]
  have hlist : catalogEngine.query ⟨dbName env, .selectTables, []⟩ c =
      (.ok ⟨(c.tables.filter (fun p => p.1 = dbName env)).map
        (fun p => [("tablename", JsVal.str p.2)])⟩, c) := rfl
  have h := catalog_ensureTables env (dbName env)
    (tableNames ⟨(c.tables.filter (fun p => p.1 = dbName env)).map
      (fun p => [("tablename", JsVal.str p.2)])⟩) requiredTables (fun _ ht => ht) c
    (fun t ht => (catalog_listing_mem c (dbName env) t).mp ht)
  unfold checkTables
  rw [hconn]
  simp only [hlist]
  intro hok
  exact ⟨(h hok).1, (h hok).2.2⟩

theorem catalog_bootstrap_of_existing (env : ProcessEnv) (c : Catalog)
    (hdb : dbName env ∈ c.databases)
    (htab : ∀ t ∈ requiredTables, (dbName env, t) ∈ c.tables) :
    (bootstrap env catalogEngine c).issued = [databaseCheck env, tablesCheck env] ∧
    (bootstrap env catalogEngine c).result = .ok () ∧
    (bootstrap env catalogEngine c).store = c := by
  have h2 : catalogEngine.query (databaseCheck env) c =
      (.ok ⟨(c.databases.filter (fun d => [JsVal.str (dbName env)] = [JsVal.str d])).map
        (fun d => [("datname", JsVal.str d)])⟩, c) := rfl
  have h4 : catalogEngine.query (tablesCheck env) c =
      (.ok ⟨(c.tables.filter (fun p => p.1 = dbName env)).map
        (fun p => [("tablename", JsVal.str p.2)])⟩, c) := rfl
  refine bootstrap_of_existing env catalogEngine c c c c c _ _ ?_ h2 ?_ ?_ h4 ?_
  · simp [catalogEngine]
  · simp only [ne_eq, List.map_eq_nil_iff, List.filter_eq_nil_iff, not_forall]
    exact ⟨dbName env, hdb, by simp⟩
  · simp [catalogEngine, hdb]
  · intro t ht
    have := (catalog_listing_mem c (dbName env) t).mpr (htab t ht)
    simpa using this

theorem catalog_bootstrap_establishes (env : ProcessEnv) (c : Catalog) :
    (bootstrap env catalogEngine c).result = .ok () →
    dbName env ∈ (bootstrap env catalogEngine c).store.databases ∧
    ∀ t ∈ requiredTables, (dbName env, t) ∈ (bootstrap env catalogEngine c).store.tables := by
  have h1 := catalog_createDatabase env c
  unfold bootstrap
  rcases hcd : createDatabaseIfNotExists env catalogEngine c with ⟨res, issued, c1⟩
  rw [hcd] at h1
  cases res with
  | error e => intro h; exact absurd h (by simp)
  | ok u =>
    obtain ⟨hdb, _⟩ := h1 rfl
    simp only at hdb ⊢
    have h2 := catalog_checkTables env c1 hdb
    rcases hct : checkTables env catalogEngine c1 with ⟨r, later, c2⟩
    rw [hct] at h2
    simp only at h2 ⊢
    intro hok
    obtain ⟨ht, hd⟩ := h2 hok
    exact ⟨by rw [hd]; exact hdb, ht⟩

theorem sqlEquals_iff (a b : JsVal) :
    sqlEquals a b = true ↔ a ≠ .null ∧ b ≠ .null ∧ a = b := by
  simp [sqlEquals, and_assoc]

theorem eval_param_one (row : Props) (code : JsVal) :
    Operand.eval row [code] (.param 1) = if code = .undefined then .null else code := by
  cases code <;> rfl

theorem literal_param_run (columns : List String) (table : String) (k : JsString)
    (content : List Props) :
    (∀ code : JsVal, code ≠ .str k →
      SelectWhere.run ⟨columns, table, .literal k, .param 1⟩ content [code] = []) ∧
    SelectWhere.run ⟨columns, table, .literal k, .param 1⟩ content [.str k] =
      content.map (fun row => columns.map (fun c => (c, prop row c))) := by
  constructor
  · intro code hne
    have hfalse : ∀ row : Props,
        sqlEquals (Operand.eval row [code] (.literal k))
          (Operand.eval row [code] (.param 1)) = false := by
      intro row
      rw [Bool.eq_false_iff, Ne, sqlEquals_iff, eval_param_one]
      rintro ⟨_, h2, h3⟩
      by_cases hu : code = .undefined
      · rw [if_pos hu] at h2
        exact h2 rfl
      · rw [if_neg hu] at h3
        exact hne h3.symm
    simp only [SelectWhere.run, hfalse, List.filter_false, List.map_nil]
  · have htrue : ∀ row : Props,
        sqlEquals (Operand.eval row [JsVal.str k] (.literal k))
          (Operand.eval row [JsVal.str k] (.param 1)) = true := by
      intro row
      rw [sqlEquals_iff, eval_param_one]
      simp [Operand.eval]
    simp only [SelectWhere.run, htrue, List.filter_true]

theorem sanitizeInput_str (a : JsString) :
    sanitizeInput (.str a) = .str (a.filter isAllowed) := by
  simp [sanitizeInput, replaceAll_sanitize]

theorem sanitizeInput_eq_str (v : JsVal) (t : JsString) (h : sanitizeInput v = .str t) :
    ∃ a, v = .str a ∧ t = a.filter isAllowed := by
  cases v <;> simp [sanitizeInput, replaceAll_sanitize] at h
  exact ⟨_, rfl, h.symm⟩

theorem testAnchored_name_filter (s : JsString) (h : s.filter isAllowed ≠ []) :
    testAnchored nameClass 1 none (s.filter isAllowed) = true := by
  simp only [testAnchored, matchRepeat_open, nameClass_test, zero_add]
  refine ⟨?_, fun c hc => (List.mem_filter.mp hc).2⟩
  obtain ⟨x, xs, hx⟩ := List.exists_cons_of_ne_nil h
  rw [hx]
  simp

theorem sanitizeInput_blank (id : JsString) (h : ∀ c ∈ id, isJsWhitespace c = true) :
    sanitizeInput (.str id) = .str id := by
  rw [sanitizeInput_str]
  congr 1
  rw [List.filter_eq_self]
  intro c hc
  simp [isAllowed, h c hc]

theorem numberClass_blank (id : JsString) (h : ∀ c ∈ id, isJsWhitespace c = true) :
    isNaN id = false ∧ isFinite id = true := by
  have ht : trim id = [] := (trim_eq_nil id).mpr h
  simp [isNaN, isFinite, numberClass, ht]

theorem isNumericString_iff (v : JsVal) :
    isNumericString v = true ↔
      ∃ id, v = .str id ∧ id ≠ [] ∧ isNaN id = false ∧ isFinite id = true := by
  cases v <;> simp [isNumericString, and_assoc]

theorem invoicesGetId_not_400 {σ : Type} (env : ProcessEnv) (db : Db σ) (req : Request)
    (s : σ) (hchecks : passesInvoicesGetIdChecks req = true) :
    (respond (invoicesGetId env db req s).outcome).status ≠ 400 := by
  simp only [passesInvoicesGetIdChecks, Bool.and_eq_true, List.isEmpty_iff] at hchecks
  obtain ⟨hb, hc⟩ := hchecks
  have hp : req.params.length ≠ 0 := by
    intro h0
    rw [Request.param, List.length_eq_zero.mp h0] at hc
    simp [sanitizeInput, isNumericString] at hc
  unfold invoicesGetId
  cases hcv : sanitizeInput (req.param "id") <;> rw [hcv] at hc <;>
    simp [isNumericString] at hc
  rename_i searched
  simp only [hb, List.length_nil, ne_eq, not_true_eq_false, if_false, hp,
    List.length_eq_zero, hc.1.1, hc.1.2, hc.2, Bool.not_true, Bool.or_self,
    Bool.false_eq_true]
  rcases hq : hookedQuery env db ⟨.selectInvoiceById, [.str searched]⟩ s with
    ⟨r, issued, s1⟩
  cases r with
  | error e => simp [respond, errorHandler]
  | ok res =>
    cases hr : res.rows <;> simp [hr, respond, errorHandler]

theorem invoicesGetId_issues_lookup {σ : Type} (env : ProcessEnv) (db : Db σ)
    (req : Request) (s : σ) (hchecks : passesInvoicesGetIdChecks req = true)
    (hflag : faultFlag env = false) :
    (invoicesGetId env db req s).issued = [invoiceLookup req] := by
  simp only [passesInvoicesGetIdChecks, Bool.and_eq_true, List.isEmpty_iff] at hchecks
  obtain ⟨hb, hc⟩ := hchecks
  have hp : req.params.length ≠ 0 := by
    intro h0
    rw [Request.param, List.length_eq_zero.mp h0] at hc
    simp [sanitizeInput, isNumericString] at hc
  unfold invoicesGetId invoiceLookup
  cases hcv : sanitizeInput (req.param "id") <;> rw [hcv] at hc <;>
    simp [isNumericString] at hc
  rename_i searched
  simp only [hb, List.length_nil, ne_eq, not_true_eq_false, if_false, hp,
    List.length_eq_zero, hc.1.1, hc.1.2, hc.2, Bool.not_true, Bool.or_self,
    Bool.false_eq_true, hookedQuery_plain env db _ s hflag]
  cases hr : (db ⟨.selectInvoiceById, [.str searched]⟩ s).1 with
  | error e => rfl
  | ok res =>
    cases hrows : res.rows <;> simp [hrows]

theorem runQuery_ok {σ : Type} (eng : Engine σ) (q : BootQuery) (s : σ)
    (h : ∃ r, (eng.query q s).1 = .ok r) : (runQuery eng q s).result = .ok () := by
  obtain ⟨r, hr⟩ := h
  unfold runQuery
  rcases hq : eng.query q s with ⟨res, s1⟩
  rw [hq] at hr
  simp only at hr
  subst hr
  rfl

theorem createTable_required {σ : Type} (eng : Engine σ) (database table : JsString)
    (s : σ) (ht : table ∈ requiredTables) :
    createTable eng database table s = runQuery eng (createQuery database table) s := by
  have hne : ¬ lit "invoices" = lit "companies" := by decide
  simp only [requiredTables, List.mem_cons, List.mem_singleton, List.not_mem_nil,
    or_false] at ht
  rcases ht with rfl | rfl
  · simp [createTable, createQuery]
  · simp [createTable, createQuery, hne]

theorem preseedFunction_required {σ : Type} (env : ProcessEnv) (eng : Engine σ)
    (database table : JsString) (s : σ) (ht : table ∈ requiredTables)
    (hT : isTestEnv env = false) :
    preseedFunction env eng database table s =
      runQuery eng (seedQuery database table) s := by
  have hne : ¬ lit "invoices" = lit "companies" := by decide
  have h1 : ¬ env.NODE_ENV = some (lit "test") := by simpa [isTestEnv] using hT
  simp only [requiredTables, List.mem_cons, List.mem_singleton, List.not_mem_nil,
    or_false] at ht
  rcases ht with rfl | rfl
  · simp [preseedFunction, seedQuery, h1]
  · simp [preseedFunction, seedQuery, h1, hne]

/-- A run of the loop over required tables does not throw when every statement the
specification expects succeeds. -/
theorem ensureTables_ok {σ : Type} (env : ProcessEnv) (eng : Engine σ)
    (database : JsString) (existing : List JsVal) (tables : List JsString)
    (hsub : ∀ t ∈ tables, t ∈ requiredTables)
    (hq : ∀ q ∈ tables.flatMap (expectedFor env database existing),
      ∀ s1, ∃ r, (eng.query q s1).1 = .ok r) (s : σ) :
    (ensureTables env eng database existing tables s).result = .ok () := by
  induction tables generalizing s with
  | nil => simp [ensureTables]
  | cons t rest ih =>
    have hrest : ∀ u ∈ rest, u ∈ requiredTables :=
      fun u hu => hsub u (List.mem_cons_of_mem _ hu)
    have ht := hsub t (List.mem_cons_self _ _)
    have hqrest : ∀ q ∈ rest.flatMap (expectedFor env database existing),
        ∀ s1, ∃ r, (eng.query q s1).1 = .ok r := by
      intro q hmem
      exact hq q (by rw [List.flatMap_cons]; exact List.mem_append_right _ hmem)
    rw [ensureTables]
    by_cases hc : existing.contains (.str t) = true
    · simp only [hc, if_true]
      exact ih hrest hqrest s
    · simp only [hc, Bool.false_eq_true, if_false]
      have hcmem : createQuery database t ∈
          (t :: rest).flatMap (expectedFor env database existing) := by
        rw [List.flatMap_cons]
        apply List.mem_append_left
        unfold expectedFor
        simp only [hc, Bool.false_eq_true, if_false]
        split_ifs <;> simp
      have hcok := runQuery_ok eng _ s (hq _ hcmem s)
      rw [createTable_required eng database t s ht]
      rcases hcr : runQuery eng (createQuery database t) s with ⟨res, created, s1⟩
      rw [hcr] at hcok
      simp only at hcok
      subst hcok
      simp only
      cases hT : isTestEnv env with
      | true =>
        rw [preseedFunction_test env eng database t s1 hT]
        simp only
        have := ih hrest hqrest s1
        rcases hr : ensureTables env eng database existing rest s1 with ⟨r, later, s3⟩
        rw [hr] at this
        exact this
      | false =>
        have hsmem : seedQuery database t ∈
            (t :: rest).flatMap (expectedFor env database existing) := by
          rw [List.flatMap_cons]
          apply List.mem_append_left
          have hc2 : existing.contains (.str t) = false := by simpa using hc
          unfold expectedFor
          rw [hc2, hT]
          simp
        have hsok := runQuery_ok eng _ s1 (hq _ hsmem s1)
        rw [preseedFunction_required env eng database t s1 ht hT]
        rcases hsr : runQuery eng (seedQuery database t) s1 with ⟨res2, seeded, s2⟩
        rw [hsr] at hsok
        simp only at hsok
        subst hsok
        simp only
        have := ih hrest hqrest s2
        rcases hr : ensureTables env eng database existing rest s2 with ⟨r, later, s3⟩
        rw [hr] at this
        exact this

theorem checkTables_ok {σ : Type} (env : ProcessEnv) (eng : Engine σ) (s s1 s2 : σ)
    (listing : QueryResult) (hconn : eng.connect (dbName env) s = (.ok (), s1))
    (hlist : eng.query (tablesCheck env) s1 = (.ok listing, s2))
    (hq : ∀ q ∈ expectedStatements env (dbName env) (tableNames listing),
      ∀ s3, ∃ r, (eng.query q s3).1 = .ok r) :
    (checkTables env eng s).result = .ok () := by
  have h := ensureTables_ok env eng (dbName env) (tableNames listing) requiredTables
    (fun _ ht => ht) (by rw [expectedStatements_eq]; exact hq) s2
  unfold tablesCheck at hlist
  unfold checkTables
  rw [hconn]
  simp only [hlist]
  exact h

/-! ## The claims -/

/-- C1: `sanitizeInput` applied to a string returns exactly the subsequence of its code
units that are ASCII letters, ASCII digits, whitespace or hyphen, in their original order
(sanitizing "a!b@c" yields "abc"); applied to a value of any other type it returns that
value unchanged. -/
theorem sanitizeInput_spec :
    (∀ s : JsString, sanitizeInput (.str s) = .str (s.filter isAllowed)) ∧
    sanitizeInput (.str (lit "a!b@c")) = .str (lit "abc") ∧
    sanitizeInput .undefined = .undefined ∧
    sanitizeInput .null = .null ∧
    (∀ b, sanitizeInput (.bool b) = .bool b) ∧
    (∀ x, sanitizeInput (.num x) = .num x) ∧
    (∀ xs, sanitizeInput (.arr xs) = .arr xs) ∧
    (∀ fs, sanitizeInput (.obj fs) = .obj fs) := by
  refine ⟨fun s => ?_, by decide, rfl, rfl, fun _ => rfl, fun _ => rfl, fun _ => rfl,
    fun _ => rfl⟩
  simp [sanitizeInput, replaceAll_sanitize]

/-- C2: for every string `v`, `validateInput(v, "code")` returns `true` exactly when `v`
has between 3 and 10 code units, each an ASCII letter or digit, and returns an error value
otherwise; "ab" fails and "abc123" succeeds. -/
theorem validateInput_code_spec (v : JsString) :
    (validateInput (.str v) (lit "code") = .ok .valid ↔
      (3 ≤ v.length ∧ v.length ≤ 10 ∧
        ∀ c ∈ v, (isAsciiLetter c || isAsciiDigit c) = true)) ∧
    (validateInput (.str v) (lit "code") = .ok .valid ∨
      ∃ msg, validateInput (.str v) (lit "code") = .ok (.invalid msg)) ∧
    validateInput (.str (lit "ab")) (lit "code") =
      .ok (.invalid (lit "Invalid code: must be 3-10 alphanumeric characters")) ∧
    validateInput (.str (lit "abc123")) (lit "code") = .ok .valid := by
  refine ⟨?_, ?_, by decide, by decide⟩
  · rw [validateInput_str_code]
    constructor
    · intro h
      split_ifs at h with h1 h2
      · exact absurd h (by simp)
      · simp only [testAnchored, matchRepeat_bounded, codeClass_test, zero_add] at h2
        obtain ⟨a, b, c⟩ := h2
        refine ⟨a, b ?_, c⟩
        rintro rfl
        simp at a
      · exact absurd h (by simp)
    · rintro ⟨a, b, c⟩
      have hne : v ≠ [] := by rintro rfl; simp at a
      have htrim : trim v ≠ [] := by
        rw [Ne, trim_eq_nil]
        intro hall
        obtain ⟨x, xs, rfl⟩ := List.exists_cons_of_ne_nil hne
        have h1 := hall x (List.mem_cons_self _ _)
        have h2 := whitespace_not_alnum x (c x (List.mem_cons_self _ _))
        rw [h1] at h2
        exact absurd h2 (by decide)
      have hm : testAnchored codeClass 3 (some 10) v = true := by
        simp only [testAnchored, matchRepeat_bounded, codeClass_test, zero_add]
        exact ⟨a, fun _ => b, c⟩
      simp [hne, htrim, hm]
  · rw [validateInput_str_code]
    split_ifs
    · exact Or.inr ⟨_, rfl⟩
    · exact Or.inl rfl
    · exact Or.inr ⟨_, rfl⟩

/-- C3: for every string `v`, `validateInput(v, "name")` returns `true` exactly when `v`
has at least one non-whitespace code unit and every code unit is an ASCII letter, an ASCII
digit, whitespace or a hyphen, and returns an error value otherwise; the empty name and a
blank name fail and "Valid Name-1" succeeds. -/
theorem validateInput_name_spec (v : JsString) :
    (validateInput (.str v) (lit "name") = .ok .valid ↔
      ((∃ c ∈ v, isJsWhitespace c = false) ∧ ∀ c ∈ v, isAllowed c = true)) ∧
    (validateInput (.str v) (lit "name") = .ok .valid ∨
      ∃ msg, validateInput (.str v) (lit "name") = .ok (.invalid msg)) ∧
    validateInput (.str (lit "")) (lit "name") =
      .ok (.invalid (lit "Invalid name: cannot be empty")) ∧
    validateInput (.str (lit "   ")) (lit "name") =
      .ok (.invalid (lit "Invalid name: cannot be empty")) ∧
    validateInput (.str (lit "Valid Name-1")) (lit "name") = .ok .valid := by
  refine ⟨?_, ?_, by decide, by decide, by decide⟩
  · rw [validateInput_str_name]
    constructor
    · intro h
      split_ifs at h with h1 h2
      · exact absurd h (by simp)
      · simp only [testAnchored, matchRepeat_open, nameClass_test, zero_add] at h2
        simp only [not_or, trim_eq_nil, not_forall, Bool.not_eq_true] at h1
        obtain ⟨c, hc, hw⟩ := h1.2
        exact ⟨⟨c, hc, hw⟩, h2.2⟩
      · exact absurd h (by simp)
    · rintro ⟨⟨c, hc, hw⟩, hall⟩
      have hne : v ≠ [] := by rintro rfl; simp at hc
      have htrim : trim v ≠ [] := by
        rw [Ne, trim_eq_nil]
        intro h
        rw [h c hc] at hw
        exact absurd hw (by decide)
      have hm : testAnchored nameClass 1 none v = true := by
        simp only [testAnchored, matchRepeat_open, nameClass_test, zero_add]
        refine ⟨?_, hall⟩
        obtain ⟨x, xs, rfl⟩ := List.exists_cons_of_ne_nil hne
        simp
      simp [hne, htrim, hm]
  · rw [validateInput_str_name]
    split_ifs
    · exact Or.inr ⟨_, rfl⟩
    · exact Or.inl rfl
    · exact Or.inr ⟨_, rfl⟩

/-- C4, as stated, fails: the body of the test "Creates a new company successfully" has
the code "new-code", which `validateInput` rejects under the code rule, and the handler
still issues the INSERT and answers 201. -/
theorem companiesPost_code_rule_counterexample :
    ¬ (validateInput (sanitizeInput (prop newCompanyRequest.body "code")) (lit "code")
          ≠ .ok .valid →
        (respond (companiesPost plainEnv companiesTable newCompanyRequest []).outcome).status
          = 400 ∧
        (companiesPost plainEnv companiesTable newCompanyRequest []).issued = []) := by
  decide

/-- C4, amended: the company CREATE handler checks its code field for presence and length
only. For every request whose body code, after sanitization, is not a non-empty string of
at most 2048 code units, the handler responds 400, issues no query and leaves the store
as it was. -/
theorem companiesPost_code_check {σ : Type} (env : ProcessEnv) (db : Db σ) (req : Request)
    (s : σ) (h : isBoundedNonEmptyString (sanitizeInput (prop req.body "code")) = false) :
    (respond (companiesPost env db req s).outcome).status = 400 ∧
    (companiesPost env db req s).issued = [] ∧
    (companiesPost env db req s).store = s := by
  unfold companiesPost
  split_ifs with h1 h2
  · exact ⟨rfl, rfl, rfl⟩
  · exact ⟨rfl, rfl, rfl⟩
  · cases hcv : sanitizeInput (prop req.body "code") <;> rw [hcv] at h <;>
      try exact ⟨rfl, rfl, rfl⟩
    rename_i code
    simp only [isBoundedNonEmptyString, Bool.and_eq_false_iff, Bool.not_eq_false',
      List.isEmpty_iff, decide_eq_false_iff_not, not_le] at h
    by_cases hc : code.length = 0
    · simp only [hc, if_true]
      exact ⟨rfl, rfl, rfl⟩
    · have hlen : code.length > 2048 := by
        rcases h with h | h
        · rw [h] at hc; simp at hc
        · exact h
      simp only [hc, if_false, hlen, if_true]
      exact ⟨rfl, rfl, rfl⟩

/-- A request whose code sanitizes to the empty string is answered 400 without a query. -/
theorem companiesPost_code_check_witness :
    isBoundedNonEmptyString
        (sanitizeInput (prop [("code", JsVal.str (lit "!!!")), ("name", .str (lit "N"))]
          "code")) = false ∧
      (respond (companiesPost plainEnv companiesTable
        ⟨[("code", .str (lit "!!!")), ("name", .str (lit "N"))], []⟩ []).outcome).status
        = 400 :=
  ⟨by decide,
    (companiesPost_code_check plainEnv companiesTable
      ⟨[("code", .str (lit "!!!")), ("name", .str (lit "N"))], []⟩ [] (by decide)).1⟩

/-- C5 fails on the name: a POST /companies body whose name sanitizes to 2049 code units
passes every check of the handler, which issues the INSERT with that name and answers
201; the update handler rejects the same name with 400 and issues nothing. -/
theorem companiesPost_long_name_inserted :
    isBoundedString (sanitizeInput (prop longNameRequest.body "name")) = false ∧
    (companiesPost plainEnv companiesTable longNameRequest []).issued =
      [⟨.insertCompany,
        [.str (lit "abc"), .str (List.replicate 2049 97), .str (lit "d")]⟩] ∧
    (respond (companiesPost plainEnv companiesTable longNameRequest []).outcome).status
      = 201 ∧
    (respond (companiesPut plainEnv companiesTable putLongNameRequest [abcRow]).outcome).status
      = 400 ∧
    (companiesPut plainEnv companiesTable putLongNameRequest [abcRow]).issued = [] := by
  have hname : prop longNameRequest.body "name" = .str (List.replicate 2049 97) := rfl
  have hcode : sanitizeInput (prop longNameRequest.body "code") = .str (lit "abc") := by
    decide
  have hdesc : sanitizeInput (prop longNameRequest.body "description") = .str (lit "d") := by
    decide
  have hchecks : passesCompaniesPostChecks longNameRequest = true := by
    simp only [passesCompaniesPostChecks, hname, hcode, hdesc, sanitizeInput_replicate_a,
      isNonEmptyString]
    decide
  have hq : companyInsert longNameRequest =
      ⟨.insertCompany, [.str (lit "abc"), .str (List.replicate 2049 97), .str (lit "d")]⟩ := by
    simp only [companyInsert, hname, hcode, hdesc, sanitizeInput_replicate_a]
  have hput : companiesPut plainEnv companiesTable putLongNameRequest [abcRow] =
      reject (lit "Name has a max length of 2048.") 400 [abcRow] := by
    have h1 : prop putLongNameRequest.body "name" = .str (List.replicate 2049 97) := rfl
    have h2 : sanitizeInput (putLongNameRequest.param "code") = .str (lit "abc") := by decide
    have h3 : putLongNameRequest.body.length = 2 := rfl
    have h4 : putLongNameRequest.params.length = 1 := rfl
    have h5 : (lit "abc").length = 3 := by decide
    have h6 : (2049 : Nat) > 2048 := by decide
    simp only [companiesPut, h1, h2, h3, h4, h5, sanitizeInput_replicate_a,
      List.length_replicate, h6, if_true, ne_eq, OfNat.ofNat_ne_zero, not_false_eq_true,
      if_false, Nat.reduceEqDiff, gt_iff_lt, Nat.reduceLT, one_ne_zero]
  refine ⟨?_, ?_, ?_, ?_, ?_⟩
  · simp only [hname, sanitizeInput_replicate_a, isBoundedString, List.length_replicate]
    decide
  · rw [companiesPost_of_checks _ _ _ _ hchecks, hookedQuery_plain _ _ _ _ (by decide), hq]
    rfl
  · rw [companiesPost_of_checks _ _ _ _ hchecks, hookedQuery_plain _ _ _ _ (by decide), hq]
    rfl
  · rw [hput]; rfl
  · rw [hput]; rfl

/-- C6: for every POST /companies request (fault flag unset) that passes the input checks
of the handler (a code and a name that sanitize to non-empty strings, a string description,
code and description within 2048 code units), the handler issues exactly one query, the
INSERT bound to the sanitized code, name and description in that order; and when storage
returns the created row the response is 201 with body `company: row`. -/
theorem companiesPost_inserts {σ : Type} (env : ProcessEnv) (db : Db σ) (req : Request)
    (s : σ) (hflag : faultFlag env = false) (hchecks : passesCompaniesPostChecks req = true) :
    (companiesPost env db req s).issued =
      [⟨.insertCompany, [sanitizeInput (prop req.body "code"),
        sanitizeInput (prop req.body "name"),
        sanitizeInput (prop req.body "description")]⟩] ∧
    ∀ row rest, (db (companyInsert req) s).1 = .ok ⟨row :: rest⟩ →
      respond (companiesPost env db req s).outcome =
        ⟨201, .obj [("company", .obj row)]⟩ := by
  rw [companiesPost_of_checks env db req s hchecks, hookedQuery_plain env db _ s hflag]
  constructor
  · cases h : (db (companyInsert req) s).1 with
    | error e =>
      simp only
      split_ifs <;> rfl
    | ok r => rfl
  · intro row rest h
    simp only [h]
    rfl

/-- The body of the test "Creates a new company successfully" is inserted and answered 201
with the created row, whose code is "new-code". -/
theorem companiesPost_inserts_witness :
    faultFlag plainEnv = false ∧ passesCompaniesPostChecks newCompanyRequest = true ∧
      respond (companiesPost plainEnv companiesTable newCompanyRequest []).outcome =
        ⟨201, .obj [("company", .obj (companyRow (.str (lit "new-code"))
          (.str (lit "New Company")) (.str (lit "Description"))))]⟩ :=
  ⟨by decide, by decide,
    (companiesPost_inserts plainEnv companiesTable newCompanyRequest [] (by decide)
      (by decide)).2
      (companyRow (.str (lit "new-code")) (.str (lit "New Company"))
        (.str (lit "Description"))) [] (by decide)⟩

/-- C7: for every POST /companies request that passes the input checks, if the INSERT
throws an error whose message contains "duplicate key value violates unique constraint",
the response has status 400 and a message containing "duplicate"; hence, when a first
INSERT succeeds and the same INSERT on the resulting store throws that violation, posting
the request twice yields 201 and then 400 with such a message. -/
theorem companiesPost_duplicate {σ : Type} (env : ProcessEnv) (db : Db σ) (req : Request)
    (s : σ) (hflag : faultFlag env = false) (hchecks : passesCompaniesPostChecks req = true) :
    (∀ e, (db (companyInsert req) s).1 = .error e →
      includes e.message (lit "duplicate key value violates unique constraint") = true →
      (respond (companiesPost env db req s).outcome).status = 400 ∧
      messageContains (respond (companiesPost env db req s).outcome) (lit "duplicate")
        = true) ∧
    (∀ created e, (db (companyInsert req) s).1 = .ok created →
      (db (companyInsert req) (db (companyInsert req) s).2).1 = .error e →
      includes e.message (lit "duplicate key value violates unique constraint") = true →
      (respond (companiesPost env db req s).outcome).status = 201 ∧
      (respond (companiesPost env db req (companiesPost env db req s).store).outcome).status
        = 400 ∧
      messageContains
        (respond (companiesPost env db req (companiesPost env db req s).store).outcome)
        (lit "duplicate") = true) := by
  have key : ∀ t e, (db (companyInsert req) t).1 = .error e →
      includes e.message (lit "duplicate key value violates unique constraint") = true →
      (respond (companiesPost env db req t).outcome).status = 400 ∧
      messageContains (respond (companiesPost env db req t).outcome) (lit "duplicate")
        = true := by
    intro t e he hdup
    rw [companiesPost_of_checks env db req t hchecks, hookedQuery_plain env db _ t hflag]
    simp only [he, hdup, if_true]
    exact ⟨rfl, by decide⟩
  refine ⟨key s, ?_⟩
  intro created e hok he hdup
  have hfirst : companiesPost env db req s =
      ⟨.json 201 (.obj [("company", created.firstRow)]), [companyInsert req],
        (db (companyInsert req) s).2⟩ := by
    rw [companiesPost_of_checks env db req s hchecks, hookedQuery_plain env db _ s hflag]
    simp only [hok]
  rw [hfirst]
  exact ⟨rfl, key _ e he hdup⟩

/-- Posting the test body twice against the sample table, which enforces unique codes,
yields 201 and then 400 with a message containing "duplicate". -/
theorem companiesPost_duplicate_witness :
    faultFlag plainEnv = false ∧ passesCompaniesPostChecks newCompanyRequest = true ∧
      (respond (companiesPost plainEnv companiesTable newCompanyRequest []).outcome).status
        = 201 ∧
      (respond (companiesPost plainEnv companiesTable newCompanyRequest
        (companiesPost plainEnv companiesTable newCompanyRequest []).store).outcome).status
        = 400 ∧
      messageContains (respond (companiesPost plainEnv companiesTable newCompanyRequest
        (companiesPost plainEnv companiesTable newCompanyRequest []).store).outcome)
        (lit "duplicate") = true :=
  ⟨by decide, by decide,
    (companiesPost_duplicate plainEnv companiesTable newCompanyRequest [] (by decide)
      (by decide)).2
      ⟨[companyRow (.str (lit "new-code")) (.str (lit "New Company"))
        (.str (lit "Description"))]⟩
      ⟨lit "duplicate key value violates unique constraint \"companies_pkey\""⟩
      (by decide) (by decide) (by decide)⟩

/-- C8, as stated, fails: the test body of POST /companies passes the input checks, the
INSERT against a table that already holds the code throws the uniqueness violation, and
the response is 400, not a status of the 500 class. -/
theorem companiesPost_conflict_counterexample :
    ¬ (passesCompaniesPostChecks newCompanyRequest = true →
        (hookedQuery plainEnv companiesTable (companyInsert newCompanyRequest)
            [companyRow (.str (lit "new-code")) (.str (lit "Old")) (.str (lit "O"))]).1 =
          .error ⟨lit "duplicate key value violates unique constraint \"companies_pkey\""⟩ →
        isServerError (respond (companiesPost plainEnv companiesTable newCompanyRequest
            [companyRow (.str (lit "new-code")) (.str (lit "Old"))
              (.str (lit "O"))]).outcome).status = true) := by
  decide

/-- C8, amended: each of the six handlers list, get and create for companies and for
invoices, on any request that passes its input checks, responds with a status of the 500
class whenever its fault-hooked storage call raises an exception (the simulated failure of
`TEST_DB_ERROR` included), except that POST /companies answers an exception whose message
contains "duplicate key value violates unique constraint" with 400. -/
theorem storage_exception_answers_500 {σ : Type} (env : ProcessEnv) (db : Db σ) (s : σ)
    (e : DbError) :
    (∀ req, passesListChecks req = true →
      (hookedQuery env db ⟨.selectCompanies, []⟩ s).1 = .error e →
      isServerError (respond (companiesGet env db req s).outcome).status = true) ∧
    (∀ req, passesCompaniesGetCodeChecks req = true →
      (hookedQuery env db (companyLookup req) s).1 = .error e →
      isServerError (respond (companiesGetCode env db req s).outcome).status = true) ∧
    (∀ req, passesCompaniesPostChecks req = true →
      (hookedQuery env db (companyInsert req) s).1 = .error e →
      includes e.message (lit "duplicate key value violates unique constraint") = false →
      isServerError (respond (companiesPost env db req s).outcome).status = true) ∧
    (∀ req, passesCompaniesPostChecks req = true →
      (hookedQuery env db (companyInsert req) s).1 = .error e →
      includes e.message (lit "duplicate key value violates unique constraint") = true →
      (respond (companiesPost env db req s).outcome).status = 400) ∧
    (∀ req, passesListChecks req = true →
      (hookedQuery env db ⟨.selectInvoices, []⟩ s).1 = .error e →
      isServerError (respond (invoicesGet env db req s).outcome).status = true) ∧
    (∀ req, passesInvoicesGetIdChecks req = true →
      (hookedQuery env db (invoiceLookup req) s).1 = .error e →
      isServerError (respond (invoicesGetId env db req s).outcome).status = true) ∧
    (∀ req, passesInvoicesPostChecks req = true →
      (hookedQuery env db (invoiceInsert req) s).1 = .error e →
      isServerError (respond (invoicesPost env db req s).outcome).status = true) := by
  refine ⟨?_, ?_, ?_, ?_, ?_, ?_, ?_⟩
  · intro req h he
    rw [companiesGet_of_error env db req s e h he]
    rfl
  · intro req h he
    rw [companiesGetCode_of_error env db req s e h he]
    rfl
  · intro req h he hnd
    rw [companiesPost_of_checks env db req s h]
    rcases hq : hookedQuery env db (companyInsert req) s with ⟨r, issued, s1⟩
    rw [hq] at he
    simp only at he
    simp only [he, hnd, Bool.false_eq_true, if_false]
    rfl
  · intro req h he hdup
    rw [companiesPost_of_checks env db req s h]
    rcases hq : hookedQuery env db (companyInsert req) s with ⟨r, issued, s1⟩
    rw [hq] at he
    simp only at he
    simp only [he, hdup, if_true]
    rfl
  · intro req h he
    rw [invoicesGet_of_error env db req s e h he]
    rfl
  · intro req h he
    obtain ⟨id, _, hout⟩ := invoicesGetId_of_error env db req s e h he
    rw [hout]
    rfl
  · intro req h he
    rw [invoicesPost_of_error env db req s e h he]
    rfl

/-- Under the simulated failure the six handlers answer a passing request with a status of
the 500 class, and so does GET /companies against a storage whose query throws. -/
theorem storage_exception_answers_500_witness :
    passesListChecks listRequest = true ∧
      passesCompaniesGetCodeChecks abcRequest = true ∧
      passesCompaniesPostChecks newCompanyRequest = true ∧
      passesInvoicesGetIdChecks invoiceOneRequest = true ∧
      passesInvoicesPostChecks newInvoiceRequest = true ∧
      isServerError
        (respond (companiesGet faultEnv companiesTable listRequest []).outcome).status = true ∧
      isServerError
        (respond (companiesGetCode faultEnv companiesTable abcRequest []).outcome).status
        = true ∧
      isServerError
        (respond (companiesPost faultEnv companiesTable newCompanyRequest []).outcome).status
        = true ∧
      isServerError
        (respond (invoicesGet faultEnv companiesTable listRequest []).outcome).status = true ∧
      isServerError
        (respond (invoicesGetId faultEnv companiesTable invoiceOneRequest []).outcome).status
        = true ∧
      isServerError
        (respond (invoicesPost faultEnv companiesTable newInvoiceRequest []).outcome).status
        = true ∧
      isServerError
        (respond (companiesGet plainEnv (failingDb (lit "connection terminated")) listRequest
          ()).outcome).status = true :=
  ⟨by decide, by decide, by decide, by decide, by decide,
    (storage_exception_answers_500 faultEnv companiesTable []
      ⟨lit "Simulated database error"⟩).1 listRequest (by decide) (by decide),
    (storage_exception_answers_500 faultEnv companiesTable []
      ⟨lit "Simulated database error"⟩).2.1 abcRequest (by decide) (by decide),
    (storage_exception_answers_500 faultEnv companiesTable []
      ⟨lit "Simulated database error"⟩).2.2.1 newCompanyRequest (by decide) (by decide)
      (by decide),
    (storage_exception_answers_500 faultEnv companiesTable []
      ⟨lit "Simulated database error"⟩).2.2.2.2.1 listRequest (by decide) (by decide),
    (storage_exception_answers_500 faultEnv companiesTable []
      ⟨lit "Simulated database error"⟩).2.2.2.2.2.1 invoiceOneRequest (by decide) (by decide),
    (storage_exception_answers_500 faultEnv companiesTable []
      ⟨lit "Simulated database error"⟩).2.2.2.2.2.2 newInvoiceRequest (by decide) (by decide),
    (storage_exception_answers_500 plainEnv (failingDb (lit "connection terminated")) ()
      ⟨lit "connection terminated"⟩).1 listRequest (by decide) (by decide)⟩

/-- The company UPDATE and DELETE handlers swallow a storage exception: for
PUT /companies/abc and DELETE /companies/abc with valid input, both under the simulated-failure flag and against
a storage whose query throws, the inner `catch` only logs and the response is 400, not a
status of the 500 class; the sibling GET /companies/abc answers the same failures with
500. -/
theorem companiesPut_delete_swallow_storage_error :
    (respond (companiesPut faultEnv companiesTable putAbcRequest [abcRow]).outcome).status
      = 400 ∧
    (respond (companiesPut plainEnv (failingDb (lit "connection terminated")) putAbcRequest
      ()).outcome).status = 400 ∧
    (companiesPut plainEnv (failingDb (lit "connection terminated")) putAbcRequest
      ()).issued = [⟨.updateCompany,
        [.str (lit "Abc Inc"), .str (lit "B"), .str (lit "abc")]⟩] ∧
    (respond (companiesDelete faultEnv companiesTable abcRequest [abcRow]).outcome).status
      = 400 ∧
    (respond (companiesDelete plainEnv (failingDb (lit "connection terminated")) abcRequest
      ()).outcome).status = 400 ∧
    isServerError 400 = false ∧
    (respond (companiesGetCode faultEnv companiesTable abcRequest [abcRow]).outcome).status
      = 500 ∧
    (respond (companiesGetCode plainEnv (failingDb (lit "connection terminated")) abcRequest
      ()).outcome).status = 500 := by
  decide

/-- C9: with the simulated-failure flag set, every request that passes the input checks of
GET /companies/:code, of POST /companies or of GET /invoices/:id is answered with status
500 and a body that has an `error` property, and no storage query is issued; for
POST /companies the message contains "Failed to create company". -/
theorem fault_flag_answers_500 {σ : Type} (env : ProcessEnv) (db : Db σ) (s : σ)
    (hflag : faultFlag env = true) :
    (∀ req, passesCompaniesGetCodeChecks req = true →
      (respond (companiesGetCode env db req s).outcome).status = 500 ∧
      (respond (companiesGetCode env db req s).outcome).hasProperty "error" = true ∧
      (companiesGetCode env db req s).issued = []) ∧
    (∀ req, passesCompaniesPostChecks req = true →
      (respond (companiesPost env db req s).outcome).status = 500 ∧
      (respond (companiesPost env db req s).outcome).hasProperty "error" = true ∧
      (companiesPost env db req s).issued = [] ∧
      messageContains (respond (companiesPost env db req s).outcome)
        (lit "Failed to create company") = true) ∧
    (∀ req, passesInvoicesGetIdChecks req = true →
      (respond (invoicesGetId env db req s).outcome).status = 500 ∧
      (respond (invoicesGetId env db req s).outcome).hasProperty "error" = true ∧
      (invoicesGetId env db req s).issued = []) := by
  refine ⟨?_, ?_, ?_⟩
  · intro req h
    simp only [passesCompaniesGetCodeChecks, Bool.and_eq_true, List.isEmpty_iff] at h
    obtain ⟨hb, hc⟩ := h
    unfold companiesGetCode
    cases hl : req.params.lookup "code" with
    | none => simp [Request.param, hl, sanitizeInput, isBoundedNonEmptyString] at hc
    | some code =>
      have hp : req.params.length ≠ 0 := by
        intro h0
        rw [List.length_eq_zero.mp h0] at hl
        simp at hl
      simp only [Request.param, hl] at hc
      cases hcv : sanitizeInput (.str code) <;> rw [hcv] at hc <;>
        simp [isBoundedNonEmptyString] at hc
      rename_i searched
      have h2 : ¬ searched.length > 2048 := by omega
      simp only [hb, List.length_nil, ne_eq, not_true_eq_false, if_false, hp, hcv,
        List.length_eq_zero, hc.1, h2, hookedQuery_fault env db _ s hflag]
      refine ⟨?_, ?_, ?_⟩ <;> first | rfl | trivial
  · intro req h
    rw [companiesPost_of_checks env db req s h, hookedQuery_fault env db _ s hflag]
    have hnd : includes (lit "Simulated database error")
        (lit "duplicate key value violates unique constraint") = false := by decide
    simp only [hnd, Bool.false_eq_true, if_false]
    refine ⟨?_, ?_, ?_, ?_⟩ <;> first | rfl | trivial
  · intro req h
    simp only [passesInvoicesGetIdChecks, Bool.and_eq_true, List.isEmpty_iff] at h
    obtain ⟨hb, hc⟩ := h
    have hp : req.params.length ≠ 0 := by
      intro h0
      rw [Request.param, List.length_eq_zero.mp h0] at hc
      simp [sanitizeInput, isNumericString] at hc
    unfold invoicesGetId
    cases hcv : sanitizeInput (req.param "id") <;> rw [hcv] at hc <;>
      simp [isNumericString] at hc
    rename_i searched
    simp only [hb, List.length_nil, ne_eq, not_true_eq_false, if_false, hp,
      List.length_eq_zero, hc.1.1, hc.1.2, hc.2, Bool.not_true, Bool.or_self,
      Bool.false_eq_true, hookedQuery_fault env db _ s hflag]
    refine ⟨?_, ?_, ?_⟩ <;> first | rfl | trivial

/-- With `TEST_DB_ERROR` set to "true", GET /companies/abc, the test body of POST /companies
and GET /invoices/1 pass the input checks and are answered 500 without a query. -/
theorem fault_flag_answers_500_witness :
    faultFlag faultEnv = true ∧
      passesCompaniesGetCodeChecks abcRequest = true ∧
      passesCompaniesPostChecks newCompanyRequest = true ∧
      passesInvoicesGetIdChecks invoiceOneRequest = true ∧
      (respond (companiesGetCode faultEnv companiesTable abcRequest [abcRow]).outcome).status
        = 500 ∧
      (respond (companiesPost faultEnv companiesTable newCompanyRequest [abcRow]).outcome).status
        = 500 ∧
      (respond (invoicesGetId faultEnv companiesTable invoiceOneRequest [abcRow]).outcome).status
        = 500 :=
  ⟨by decide, by decide, by decide, by decide,
    ((fault_flag_answers_500 faultEnv companiesTable [abcRow] (by decide)).1 abcRequest
      (by decide)).1,
    ((fault_flag_answers_500 faultEnv companiesTable [abcRow] (by decide)).2.1
      newCompanyRequest (by decide)).1,
    ((fault_flag_answers_500 faultEnv companiesTable [abcRow] (by decide)).2.2
      invoiceOneRequest (by decide)).1⟩

/-- C10 fails: DELETE /companies/abc with an empty body passes the input checks, the
storage DELETE removes the stored row and returns it, and the handler still answers 400,
because the result is bound to a `const` scoped to the `try` block while the test after
the block reads the outer, unassigned variable; no run of the handler answers 200. -/
theorem companiesDelete_answers_400_after_delete :
    passesCompaniesDeleteChecks abcRequest = true ∧
    (companiesTable ⟨.deleteCompany, [.str (lit "abc")]⟩ [abcRow]).1 =
      .ok ⟨[[("code", .str (lit "abc"))]]⟩ ∧
    (companiesDelete plainEnv companiesTable abcRequest [abcRow]).issued =
      [⟨.deleteCompany, [.str (lit "abc")]⟩] ∧
    (companiesDelete plainEnv companiesTable abcRequest [abcRow]).store = [] ∧
    (respond (companiesDelete plainEnv companiesTable abcRequest [abcRow]).outcome).status
      = 400 ∧
    ∀ (σ : Type) (env : ProcessEnv) (db : Db σ) (req : Request) (s : σ),
      (respond (companiesDelete env db req s).outcome).status ≠ 200 := by
  refine ⟨by decide, by decide, by decide, by decide, by decide, ?_⟩
  intro σ env db req s
  unfold companiesDelete
  split_ifs
  · simp [reject, respond, errorHandler]
  · simp [reject, respond, errorHandler]
  · split
    · split_ifs <;> simp [reject, respond, errorHandler]
    · simp [reject, respond, errorHandler]

/-- C11 fails: PUT /invoices/1 with body amt "100" has a numeric id and a numeric amt, the
storage would return the updated row, and the handler answers 400 without issuing the
UPDATE, because it rejects the amt when `!isNaN(amt) || !isFinite(amt)`; the create
handler accepts the same amt. -/
theorem invoicesPut_numeric_amt_rejected :
    isNumericString (sanitizeInput (putInvoiceRequest.param "id")) = true ∧
    isNumericString (sanitizeInput (prop putInvoiceRequest.body "amt")) = true ∧
    (respond (invoicesPut plainEnv
      (answeringDb [invoiceRow (.num 1) (.str (lit "ibm")) (.num 100)]) putInvoiceRequest
      ()).outcome).status = 400 ∧
    (invoicesPut plainEnv
      (answeringDb [invoiceRow (.num 1) (.str (lit "ibm")) (.num 100)]) putInvoiceRequest
      ()).issued = [] ∧
    messageContains (respond (invoicesPut plainEnv
      (answeringDb [invoiceRow (.num 1) (.str (lit "ibm")) (.num 100)]) putInvoiceRequest
      ()).outcome) (lit "Invoice Amount must be a number.") = true ∧
    (respond (invoicesPost plainEnv
      (answeringDb [invoiceRow (.num 1) (.str (lit "ibm")) (.num 100)])
      ⟨[("comp_code", .str (lit "ibm")), ("amt", .str (lit "100"))], []⟩
      ()).outcome).status = 201 ∧
    ∀ (σ : Type) (env : ProcessEnv) (db : Db σ) (req : Request) (s : σ),
      (respond (invoicesPut env db req s).outcome).status = 400 ∧
      (invoicesPut env db req s).issued = [] := by
  refine ⟨by decide, by decide, by decide, by decide, by decide, by decide, ?_⟩
  intro σ env db req s
  exact ⟨(invoicesPut_rejects env db req s).2, (invoicesPut_rejects env db req s).1⟩

/-- C12: the invoice DELETE handler always ends in `next` with an error envelope, for
every environment, storage, request and store; the response status is 400, 404 or 500,
never a 2xx status. -/
theorem invoicesDelete_always_errors {σ : Type} (env : ProcessEnv) (db : Db σ)
    (req : Request) (s : σ) :
    (∃ err, (invoicesDelete env db req s).outcome = .next err) ∧
    ((respond (invoicesDelete env db req s).outcome).status = 400 ∨
      (respond (invoicesDelete env db req s).outcome).status = 404 ∨
      (respond (invoicesDelete env db req s).outcome).status = 500) ∧
    ¬ (200 ≤ (respond (invoicesDelete env db req s).outcome).status ∧
      (respond (invoicesDelete env db req s).outcome).status ≤ 299) := by
  have key : ∃ err, (invoicesDelete env db req s).outcome = .next err ∧
      (err.status = some 400 ∨ err.status = some 404 ∨ err.status = none) := by
    unfold invoicesDelete
    split_ifs
    · exact ⟨_, rfl, Or.inl rfl⟩
    · exact ⟨_, rfl, Or.inl rfl⟩
    · split
      · exact ⟨_, rfl, Or.inr (Or.inr rfl)⟩
      · split
        · split_ifs
          · exact ⟨_, rfl, Or.inl rfl⟩
          · exact ⟨_, rfl, Or.inl rfl⟩
          · split
            · exact ⟨_, rfl, Or.inr (Or.inr rfl)⟩
            · split_ifs
              · exact ⟨_, rfl, Or.inr (Or.inl rfl)⟩
              · exact ⟨_, rfl, Or.inr (Or.inr rfl)⟩
        · exact ⟨_, rfl, Or.inl rfl⟩
  obtain ⟨err, hout, hst⟩ := key
  have hstatus : (respond (invoicesDelete env db req s).outcome).status = 400 ∨
      (respond (invoicesDelete env db req s).outcome).status = 404 ∨
      (respond (invoicesDelete env db req s).outcome).status = 500 := by
    rw [hout]
    rcases hst with h | h | h
    · left; simp [respond, errorHandler, h]
    · right; left; simp [respond, errorHandler, h]
    · right; right; simp [respond, errorHandler, h]
  refine ⟨⟨err, hout⟩, hstatus, ?_⟩
  rcases hstatus with h | h | h <;> rw [h] <;> decide

/-- C13 fails: GET /companies and GET /invoices with an empty body, against a storage
whose SELECT succeeds with zero rows, are answered 200 with an empty list, not 404. The
handlers test `result.length === 0`, and the result object has no `length`; the lookups by
code and by id test `result.rows.length === 0` and do answer 404. -/
theorem list_handlers_answer_200_on_empty :
    passesListChecks listRequest = true ∧
    (answeringDb [] ⟨.selectCompanies, []⟩ ()).1 = .ok ⟨[]⟩ ∧
    respond (companiesGet plainEnv (answeringDb []) listRequest ()).outcome =
      ⟨200, .obj [("companies", .arr [])]⟩ ∧
    respond (invoicesGet plainEnv (answeringDb []) listRequest ()).outcome =
      ⟨200, .obj [("invoices", .arr [])]⟩ ∧
    (respond (companiesGetCode plainEnv (answeringDb []) abcRequest ()).outcome).status
      = 404 ∧
    (respond (invoicesGetId plainEnv (answeringDb []) invoiceOneRequest ()).outcome).status
      = 404 := by
  decide

/-- C14, as stated, fails: the id "1!" does not denote a number, yet GET /invoices/1! is
not answered 400: the id is sanitized to "1" first and the lookup is issued with it. -/
theorem invoicesGetId_sanitized_id_counterexample :
    ¬ (isNaN (lit "1!") = true →
        (respond (invoicesGetId plainEnv (answeringDb []) invoiceBangRequest ()).outcome).status
          = 400 ∧
        (invoicesGetId plainEnv (answeringDb []) invoiceBangRequest ()).issued = []) := by
  decide

/-- C14, amended: for every GET /invoices/:id request whose id path parameter, after
sanitization, is empty or fails the numeric test of the handler, that is, `Number`
converts it to NaN or to an infinity (for example "invalid"), the handler responds 400,
issues no storage query and leaves the store as it was. Every other id passes: a request
with an empty body and such an id is not answered 400, and with the fault flag unset the
lookup is issued with the sanitized id. The test is the conversion of JavaScript, not
the reading of a numeral: an id of whitespace only converts to 0 and passes when it is
not empty. -/
theorem invoicesGetId_rejects_non_numeric {σ : Type} (env : ProcessEnv) (db : Db σ)
    (req : Request) (s : σ) :
    (isNumericString (sanitizeInput (req.param "id")) = false →
      (respond (invoicesGetId env db req s).outcome).status = 400 ∧
      (invoicesGetId env db req s).issued = [] ∧
      (invoicesGetId env db req s).store = s) ∧
    (req.body = [] → isNumericString (sanitizeInput (req.param "id")) = true →
      (respond (invoicesGetId env db req s).outcome).status ≠ 400 ∧
      (faultFlag env = false → (invoicesGetId env db req s).issued = [invoiceLookup req])) ∧
    (∀ v, isNumericString v = true ↔
      ∃ id, v = .str id ∧ id ≠ [] ∧ isNaN id = false ∧ isFinite id = true) ∧
    (∀ id, id ≠ [] → (∀ c ∈ id, isJsWhitespace c = true) →
      isNumericString (sanitizeInput (.str id)) = true) := by
  refine ⟨?_, ?_, isNumericString_iff, ?_⟩
  · intro h
    unfold invoicesGetId
    split_ifs
    · exact ⟨rfl, rfl, rfl⟩
    · exact ⟨rfl, rfl, rfl⟩
    · cases hcv : sanitizeInput (req.param "id") <;> rw [hcv] at h <;>
        try exact ⟨rfl, rfl, rfl⟩
      rename_i id
      simp only [isNumericString, Bool.and_eq_false_iff, Bool.not_eq_false',
        List.isEmpty_iff] at h
      by_cases h0 : id.length = 0
      · simp only [h0, if_true]
        exact ⟨rfl, rfl, rfl⟩
      · have hbad : (isNaN id || !isFinite id) = true := by
          rcases h with (h | h) | h
          · rw [h] at h0; simp at h0
          · simp [h]
          · simp [h]
        simp only [h0, if_false, hbad, if_true]
        exact ⟨rfl, rfl, rfl⟩
  · intro hb hnum
    have hchecks : passesInvoicesGetIdChecks req = true := by
      simp [passesInvoicesGetIdChecks, hb, hnum]
    exact ⟨invoicesGetId_not_400 env db req s hchecks,
      invoicesGetId_issues_lookup env db req s hchecks⟩
  · intro id hne hws
    have hkeep : sanitizeInput (.str id) = .str id := sanitizeInput_blank id hws
    rw [hkeep]
    exact (isNumericString_iff _).mpr ⟨id, rfl, hne, numberClass_blank id hws⟩

/-- The request GET /invoices/invalid is answered 400 without a query, whereas GET
/invoices/%20, whose id is one space, passes the numeric test: the lookup is issued with
the blank id and, no invoice being found, the answer is 404. -/
theorem invoicesGetId_rejects_non_numeric_witness :
    isNumericString (sanitizeInput (invoiceInvalidRequest.param "id")) = false ∧
      (respond (invoicesGetId plainEnv (answeringDb []) invoiceInvalidRequest
        ()).outcome).status = 400 ∧
      (invoicesGetId plainEnv (answeringDb []) invoiceInvalidRequest ()).issued = [] ∧
      invoiceBlankRequest.body = [] ∧
      isNumericString (sanitizeInput (invoiceBlankRequest.param "id")) = true ∧
      (respond (invoicesGetId plainEnv (answeringDb []) invoiceBlankRequest
        ()).outcome).status ≠ 400 ∧
      (invoicesGetId plainEnv (answeringDb []) invoiceBlankRequest ()).issued =
        [invoiceLookup invoiceBlankRequest] ∧
      invoiceLookup invoiceBlankRequest = ⟨.selectInvoiceById, [.str (lit " ")]⟩ ∧
      (respond (invoicesGetId plainEnv (answeringDb []) invoiceBlankRequest
        ()).outcome).status = 404 :=
  ⟨by decide,
    ((invoicesGetId_rejects_non_numeric plainEnv (answeringDb []) invoiceInvalidRequest
      ()).1 (by decide)).1,
    ((invoicesGetId_rejects_non_numeric plainEnv (answeringDb []) invoiceInvalidRequest
      ()).1 (by decide)).2.1,
    by decide, by decide,
    ((invoicesGetId_rejects_non_numeric plainEnv (answeringDb []) invoiceBlankRequest
      ()).2.1 (by decide) (by decide)).1,
    ((invoicesGetId_rejects_non_numeric plainEnv (answeringDb []) invoiceBlankRequest
      ()).2.1 (by decide) (by decide)).2 (by decide),
    by decide, by decide⟩

/-- C15: for every GET /invoices/:id request that passes the id checks, fault flag unset:
when the lookup returns zero rows the response is 404; otherwise it is 200 with the body
`invoice: (id, amt, paid, add_date, paid_date, company: (code, name, description))` built
from the first row, where the description is the `company_description` of the row when
that is a string and the empty string when it is null. -/
theorem invoicesGetId_renders {σ : Type} (env : ProcessEnv) (db : Db σ) (req : Request)
    (s : σ) (hflag : faultFlag env = false)
    (hchecks : passesInvoicesGetIdChecks req = true) :
    (invoicesGetId env db req s).issued = [invoiceLookup req] ∧
    ((db (invoiceLookup req) s).1 = .ok ⟨[]⟩ →
      (respond (invoicesGetId env db req s).outcome).status = 404) ∧
    ∀ row rest, (db (invoiceLookup req) s).1 = .ok ⟨row :: rest⟩ →
      isStringOrNull (prop row "company_description") = true →
      respond (invoicesGetId env db req s).outcome =
        ⟨200, .obj [("invoice", .obj [
          ("id", prop row "id"),
          ("amt", prop row "amt"),
          ("paid", prop row "paid"),
          ("add_date", prop row "add_date"),
          ("paid_date", prop row "paid_date"),
          ("company", .obj [
            ("code", prop row "company_code"),
            ("name", prop row "company_name"),
            ("description",
              if prop row "company_description" = .null then .str []
              else prop row "company_description")])])]⟩ := by
  simp only [passesInvoicesGetIdChecks, Bool.and_eq_true, List.isEmpty_iff] at hchecks
  obtain ⟨hb, hc⟩ := hchecks
  have hp : req.params.length ≠ 0 := by
    intro h0
    rw [Request.param, List.length_eq_zero.mp h0] at hc
    simp [sanitizeInput, isNumericString] at hc
  unfold invoiceLookup invoicesGetId
  cases hcv : sanitizeInput (req.param "id") <;> rw [hcv] at hc <;>
    simp [isNumericString] at hc
  rename_i searched
  simp only [hb, List.length_nil, ne_eq, not_true_eq_false, if_false, hp,
    List.length_eq_zero, hc.1.1, hc.1.2, hc.2, Bool.not_true, Bool.or_self,
    Bool.false_eq_true, hookedQuery_plain env db _ s hflag]
  refine ⟨?_, ?_, ?_⟩
  · cases h : (db ⟨.selectInvoiceById, [.str searched]⟩ s).1 with
    | error e => rfl
    | ok r =>
      cases hr : r.rows <;> simp [hr]
  · intro h
    simp [h, respond, errorHandler]
  · intro row rest h hd
    simp only [h, respond, HttpResponse.mk.injEq, true_and]
    cases hv : prop row "company_description" <;> rw [hv] at hd <;>
      simp [isStringOrNull] at hd <;> simp [descriptionOrEmpty, JsVal.truthy]

/-- The lookup for GET /invoices/1 returning the "ibm" invoice is answered 200 with the
nested company, with its description when there is one and "" when it is null; an empty
lookup is answered 404. -/
theorem invoicesGetId_renders_witness :
    faultFlag plainEnv = false ∧ passesInvoicesGetIdChecks invoiceOneRequest = true ∧
      isStringOrNull (prop (ibmInvoiceRow .null) "company_description") = true ∧
      (respond (invoicesGetId plainEnv (answeringDb []) invoiceOneRequest ()).outcome).status
        = 404 ∧
      respond (invoicesGetId plainEnv (answeringDb [ibmInvoiceRow .null]) invoiceOneRequest
          ()).outcome =
        ⟨200, .obj [("invoice", .obj [
          ("id", .num 1), ("amt", .num 100), ("paid", .bool false),
          ("add_date", .str (lit "2018-01-01")), ("paid_date", .null),
          ("company", .obj [("code", .str (lit "ibm")), ("name", .str (lit "IBM")),
            ("description", .str [])])])]⟩ ∧
      respond (invoicesGetId plainEnv (answeringDb [ibmInvoiceRow (.str (lit "Big blue."))])
          invoiceOneRequest ()).outcome =
        ⟨200, .obj [("invoice", .obj [
          ("id", .num 1), ("amt", .num 100), ("paid", .bool false),
          ("add_date", .str (lit "2018-01-01")), ("paid_date", .null),
          ("company", .obj [("code", .str (lit "ibm")), ("name", .str (lit "IBM")),
            ("description", .str (lit "Big blue."))])])]⟩ :=
  ⟨by decide, by decide, by decide,
    (invoicesGetId_renders plainEnv (answeringDb []) invoiceOneRequest () (by decide)
      (by decide)).2.1 (by decide),
    (invoicesGetId_renders plainEnv (answeringDb [ibmInvoiceRow .null]) invoiceOneRequest ()
      (by decide) (by decide)).2.2 (ibmInvoiceRow .null) [] (by decide) (by decide),
    (invoicesGetId_renders plainEnv (answeringDb [ibmInvoiceRow (.str (lit "Big blue."))])
      invoiceOneRequest () (by decide) (by decide)).2.2
      (ibmInvoiceRow (.str (lit "Big blue."))) [] (by decide) (by decide)⟩

/-- C16: for every GET /companies/:code request with a valid code, fault flag unset: when
the company lookup returns zero rows the response is 404; when it returns a row the
response is 200 with that company, whether the invoice lookup succeeds or throws: with an
`invoices` array equal to the rows of the invoice lookup (empty if none) when it succeeds,
and the row as it was, without `invoices`, when it throws. Attaching `invoices` leaves
code, name and description as they were. -/
theorem companiesGetCode_enriches {σ : Type} (env : ProcessEnv) (db : Db σ) (req : Request)
    (s : σ) (hflag : faultFlag env = false)
    (hchecks : passesCompaniesGetCodeChecks req = true) :
    ((db (companyLookup req) s).1 = .ok ⟨[]⟩ →
      (respond (companiesGetCode env db req s).outcome).status = 404) ∧
    (∀ row rest, (db (companyLookup req) s).1 = .ok ⟨row :: rest⟩ →
      (∀ e, (db (invoiceIdsLookup row) (db (companyLookup req) s).2).1 = .error e →
        respond (companiesGetCode env db req s).outcome =
          ⟨200, .obj [("company", .obj row)]⟩) ∧
      (∀ found, (db (invoiceIdsLookup row) (db (companyLookup req) s).2).1 = .ok found →
        respond (companiesGetCode env db req s).outcome =
          ⟨200, .obj [("company",
            .obj (setProp row "invoices" (.arr (found.rows.map .obj))))]⟩)) ∧
    (∀ (row : Props) (v : JsVal),
      prop (setProp row "invoices" v) "invoices" = v ∧
      prop (setProp row "invoices" v) "code" = prop row "code" ∧
      prop (setProp row "invoices" v) "name" = prop row "name" ∧
      prop (setProp row "invoices" v) "description" = prop row "description") := by
  simp only [passesCompaniesGetCodeChecks, Bool.and_eq_true, List.isEmpty_iff] at hchecks
  obtain ⟨hb, hc⟩ := hchecks
  refine ⟨?_, ?_, fun row v => ⟨prop_setProp_same _ _ _,
    prop_setProp_other _ _ _ _ (by decide), prop_setProp_other _ _ _ _ (by decide),
    prop_setProp_other _ _ _ _ (by decide)⟩⟩
  all_goals
    unfold companyLookup companiesGetCode
    cases hl : req.params.lookup "code" with
    | none => simp [Request.param, hl, sanitizeInput, isBoundedNonEmptyString] at hc
    | some code =>
      have hp : req.params.length ≠ 0 := by
        intro h0
        rw [List.length_eq_zero.mp h0] at hl
        simp at hl
      simp only [Request.param, hl] at hc ⊢
      cases hcv : sanitizeInput (.str code) <;> rw [hcv] at hc <;>
        simp [isBoundedNonEmptyString] at hc
      rename_i searched
      have h2 : ¬ searched.length > 2048 := by omega
      simp only [hb, List.length_nil, ne_eq, not_true_eq_false, if_false, hp,
        List.length_eq_zero, hc.1, h2, hookedQuery_plain env db _ s hflag]
      first
      | (intro h
         simp [h, respond, errorHandler])
      | (intro row rest h
         simp only [h, invoiceIdsLookup]
         constructor
         · intro e he
           rw [show db ⟨.selectInvoiceIdsByCodeLiteral, [prop row "code"]⟩
               (db ⟨.selectCompanyByCode, [.str searched]⟩ s).2 = (.error e, _) from
             Prod.ext he rfl]
           rfl
         · intro found hf
           rw [show db ⟨.selectInvoiceIdsByCodeLiteral, [prop row "code"]⟩
               (db ⟨.selectCompanyByCode, [.str searched]⟩ s).2 = (.ok found, _) from
             Prod.ext hf rfl]
           simp [respond, QueryResult.length])

/-- The request GET /companies/goog is answered 404 when the lookup finds nothing, 200
with `invoices: []` when the invoice lookup succeeds with no row (the body of the test
"Returns a single company"), and 200 with the bare company when the invoice lookup
throws. -/
theorem companiesGetCode_enriches_witness :
    faultFlag plainEnv = false ∧ passesCompaniesGetCodeChecks googRequest = true ∧
      (respond (companiesGetCode plainEnv (lookupDb [] (some [])) googRequest ()).outcome).status
        = 404 ∧
      respond (companiesGetCode plainEnv (lookupDb [googRow] none) googRequest ()).outcome =
        ⟨200, .obj [("company", .obj googRow)]⟩ ∧
      respond (companiesGetCode plainEnv (lookupDb [googRow] (some [])) googRequest
          ()).outcome =
        ⟨200, .obj [("company", .obj [("code", .str (lit "goog")),
          ("name", .str (lit "Google")), ("description", .str (lit "G")),
          ("invoices", .arr [])])]⟩ :=
  ⟨by decide, by decide,
    (companiesGetCode_enriches plainEnv (lookupDb [] (some [])) googRequest () (by decide)
      (by decide)).1 (by decide),
    ((companiesGetCode_enriches plainEnv (lookupDb [googRow] none) googRequest () (by decide)
      (by decide)).2.1 googRow [] (by decide)).1
      ⟨lit "relation \"invoices\" does not exist"⟩ (by decide),
    ((companiesGetCode_enriches plainEnv (lookupDb [googRow] (some [])) googRequest ()
      (by decide) (by decide)).2.1 googRow [] (by decide)).2 ⟨[]⟩ (by decide)⟩

/-- C17: the general error handler renders every forwarded value `err` as the body
`error: err, message: err.message` with the status `err.status` when that is truthy
(non-zero) and 500 otherwise: for an object by its `status` and `message` properties, for
a string, number, boolean or array, which carry neither, with status 500; on an envelope
this is the status it was built with when non-zero and 500 when zero or absent. The 404
handler forwards the envelope ("Not Found", 404), which is rendered with status 404. -/
theorem generalErrorHandler_renders :
    (∀ fields, generalErrorHandler (.obj fields) =
      .ok ⟨if (prop fields "status").truthy then prop fields "status" else .num 500,
        .obj [("error", .obj fields), ("message", prop fields "message")]⟩) ∧
    (∀ t, generalErrorHandler (.str t) =
      .ok ⟨.num 500, .obj [("error", .str t), ("message", .undefined)]⟩) ∧
    (∀ x, generalErrorHandler (.num x) =
      .ok ⟨.num 500, .obj [("error", .num x), ("message", .undefined)]⟩) ∧
    (∀ b, generalErrorHandler (.bool b) =
      .ok ⟨.num 500, .obj [("error", .bool b), ("message", .undefined)]⟩) ∧
    (∀ xs, generalErrorHandler (.arr xs) =
      .ok ⟨.num 500, .obj [("error", .arr xs), ("message", .undefined)]⟩) ∧
    (∀ e : ExpressError, generalErrorHandler e.toJs =
      .ok ⟨.num (errorHandler e).status, (errorHandler e).body⟩) ∧
    (∀ m st, (errorHandler ⟨m, some (st + 1)⟩).status = st + 1) ∧
    (∀ m, (errorHandler ⟨m, some 0⟩).status = 500) ∧
    (∀ m, (errorHandler ⟨m, none⟩).status = 500) ∧
    (∀ e : ExpressError, (errorHandler e).body =
      .obj [("error", e.toJs), ("message", .str e.message)]) ∧
    (∀ (σ : Type) (req : Request) (s : σ),
      (notFoundHandler req s).outcome = .next ⟨lit "Not Found", some 404⟩ ∧
      (respond (notFoundHandler req s).outcome).status = 404 ∧
      (respond (notFoundHandler req s).outcome).message = .str (lit "Not Found")) := by
  refine ⟨fun _ => rfl, fun _ => rfl, fun _ => rfl, fun _ => rfl, fun _ => rfl, ?_,
    fun _ _ => by simp [errorHandler], fun _ => rfl, fun _ => rfl, fun _ => rfl,
    fun _ _ _ => ⟨rfl, rfl, rfl⟩⟩
  intro e
  obtain ⟨m, st⟩ := e
  cases st with
  | none => rfl
  | some st =>
    by_cases h0 : st = 0
    · subst h0
      simp [generalErrorHandler, ExpressError.toJs, readProperty, prop, List.lookup,
        JsVal.truthy, errorHandler]
    · have hq : (st : ℚ) ≠ 0 := by exact_mod_cast h0
      simp [generalErrorHandler, ExpressError.toJs, readProperty, prop, List.lookup,
        JsVal.truthy, errorHandler, h0, hq]

/-- C18: bootstrapping is idempotent. Whenever the database check finds the target
database and the table listing has both required tables, `createDatabaseIfNotExists`
followed by `checkTables` issues the two existence checks and nothing else, and does not
throw. On the sample server every run that does not throw leaves such a state: a second
run from it issues only the two checks and leaves the catalog as it is. -/
theorem bootstrap_idempotent (env : ProcessEnv) :
    (∀ (σ : Type) (eng : Engine σ) (s s1 s2 s3 s4 : σ) (found listing : QueryResult),
      eng.connect (lit "postgres") s = (.ok (), s1) →
      eng.query (databaseCheck env) s1 = (.ok found, s2) →
      found.rows ≠ [] →
      eng.connect (dbName env) s2 = (.ok (), s3) →
      eng.query (tablesCheck env) s3 = (.ok listing, s4) →
      (∀ t ∈ requiredTables, (tableNames listing).contains (.str t) = true) →
      (bootstrap env eng s).issued = [databaseCheck env, tablesCheck env] ∧
      (bootstrap env eng s).result = .ok ()) ∧
    (∀ c : Catalog, (bootstrap env catalogEngine c).result = .ok () →
      (bootstrap env catalogEngine (bootstrap env catalogEngine c).store).issued =
        [databaseCheck env, tablesCheck env] ∧
      (bootstrap env catalogEngine (bootstrap env catalogEngine c).store).result = .ok () ∧
      (bootstrap env catalogEngine (bootstrap env catalogEngine c).store).store =
        (bootstrap env catalogEngine c).store) := by
  constructor
  · intro σ eng s s1 s2 s3 s4 found listing h1 h2 hfound h3 h4 h5
    have h := bootstrap_of_existing env eng s s1 s2 s3 s4 found listing h1 h2 hfound h3 h4 h5
    exact ⟨h.1, h.2.1⟩
  · intro c hok
    obtain ⟨hdb, htab⟩ := catalog_bootstrap_establishes env c hok
    exact catalog_bootstrap_of_existing env _ hdb htab

/-- On the sample server: from a ready catalog the run issues the two checks only; a
production run from a fresh server creates and seeds everything without throwing, and
the run after it issues the two checks only. -/
theorem bootstrap_idempotent_witness :
    (∀ t ∈ requiredTables,
        (tableNames ⟨[[("tablename", .str (lit "companies"))],
          [("tablename", .str (lit "invoices"))]]⟩).contains (.str t) = true) ∧
      (bootstrap productionEnv catalogEngine readyCatalog).issued =
        [databaseCheck productionEnv, tablesCheck productionEnv] ∧
      (bootstrap productionEnv catalogEngine freshCatalog).result = .ok () ∧
      (bootstrap productionEnv catalogEngine freshCatalog).issued.length = 7 ∧
      (bootstrap productionEnv catalogEngine
          (bootstrap productionEnv catalogEngine freshCatalog).store).issued =
        [databaseCheck productionEnv, tablesCheck productionEnv] :=
  ⟨by decide,
    ((bootstrap_idempotent productionEnv).1 Catalog catalogEngine readyCatalog readyCatalog
      readyCatalog readyCatalog readyCatalog ⟨[[("datname", .str (lit "biztime"))]]⟩
      ⟨[[("tablename", .str (lit "companies"))], [("tablename", .str (lit "invoices"))]]⟩
      (by decide) (by decide) (by decide) (by decide) (by decide) (by decide)).1,
    by decide, by decide,
    ((bootstrap_idempotent productionEnv).2 freshCatalog (by decide)).1⟩

/-- C19: in a run of `checkTables` whose listing succeeded, the statements issued after
the listing are an initial segment of what the specification expects, table by table in the
order companies, invoices; the run does not throw when the server accepts each of those
statements, and when the run does not throw they are exactly that: a required table is
created if and only if the listing lacks it, and seeded if and only if the listing lacks
it and the environment is not the test environment. A table the listing has is neither
created nor seeded, and under the test environment no run issues a seed INSERT. -/
theorem checkTables_creates_and_seeds {σ : Type} (env : ProcessEnv) (eng : Engine σ)
    (s : σ) :
    (∀ s1 s2 listing, eng.connect (dbName env) s = (.ok (), s1) →
      eng.query (tablesCheck env) s1 = (.ok listing, s2) →
      (checkTables env eng s).issued <+:
        tablesCheck env :: expectedStatements env (dbName env) (tableNames listing) ∧
      ((∀ q ∈ expectedStatements env (dbName env) (tableNames listing),
          ∀ s3, ∃ r, (eng.query q s3).1 = .ok r) →
        (checkTables env eng s).result = .ok ()) ∧
      ((checkTables env eng s).result = .ok () →
        (checkTables env eng s).issued =
          tablesCheck env :: expectedStatements env (dbName env) (tableNames listing) ∧
        ∀ t ∈ requiredTables,
          (createQuery (dbName env) t ∈ (checkTables env eng s).issued ↔
            (tableNames listing).contains (.str t) = false) ∧
          (seedQuery (dbName env) t ∈ (checkTables env eng s).issued ↔
            ((tableNames listing).contains (.str t) = false ∧ isTestEnv env = false))) ∧
      (∀ t ∈ requiredTables, (tableNames listing).contains (.str t) = true →
        createQuery (dbName env) t ∉ (checkTables env eng s).issued ∧
        seedQuery (dbName env) t ∉ (checkTables env eng s).issued)) ∧
    (isTestEnv env = true → ∀ q ∈ (checkTables env eng s).issued,
      q.statement ≠ .insertCompanies ∧ q.statement ≠ .insertInvoices) := by
  refine ⟨?_, fun hT q hq => checkTables_test_no_seed env eng s hT q hq⟩
  intro s1 s2 listing hconn hlist
  have hexp := checkTables_expected env eng s s1 s2 listing hconn hlist
  have hmem : ∀ q ∈ (checkTables env eng s).issued,
      q ∈ tablesCheck env :: expectedStatements env (dbName env) (tableNames listing) :=
    fun q hq => hexp.1.subset hq
  have habs := mem_expected_of_absent env (dbName env) (tableNames listing)
  refine ⟨hexp.1, checkTables_ok env eng s s1 s2 listing hconn hlist, ?_, ?_⟩
  · intro hok
    refine ⟨hexp.2 hok, ?_⟩
    intro t ht
    simp only [requiredTables, List.mem_cons, List.mem_singleton, List.not_mem_nil,
      or_false] at ht
    rcases ht with rfl | rfl
    · refine ⟨⟨fun h => (mem_expected_companies _ _ _ _ (hmem _ h)).1 rfl, fun h => ?_⟩,
        ⟨fun h => (mem_expected_companies _ _ _ _ (hmem _ h)).2.1 rfl, fun h => ?_⟩⟩
      · rw [hexp.2 hok]
        exact List.mem_cons_of_mem _ (habs.1 h)
      · rw [hexp.2 hok]
        exact List.mem_cons_of_mem _ (habs.2.1 h.1 h.2)
    · refine ⟨⟨fun h => (mem_expected_companies _ _ _ _ (hmem _ h)).2.2.1 rfl, fun h => ?_⟩,
        ⟨fun h => (mem_expected_companies _ _ _ _ (hmem _ h)).2.2.2.1 rfl, fun h => ?_⟩⟩
      · rw [hexp.2 hok]
        exact List.mem_cons_of_mem _ (habs.2.2.1 h)
      · rw [hexp.2 hok]
        exact List.mem_cons_of_mem _ (habs.2.2.2 h.1 h.2)
  · intro t ht hin
    simp only [requiredTables, List.mem_cons, List.mem_singleton, List.not_mem_nil,
      or_false] at ht
    rcases ht with rfl | rfl
    · refine ⟨fun h => ?_, fun h => ?_⟩
      · have := (mem_expected_companies _ _ _ _ (hmem _ h)).1 rfl
        rw [hin] at this
        exact absurd this (by decide)
      · have := ((mem_expected_companies _ _ _ _ (hmem _ h)).2.1 rfl).1
        rw [hin] at this
        exact absurd this (by decide)
    · refine ⟨fun h => ?_, fun h => ?_⟩
      · have := (mem_expected_companies _ _ _ _ (hmem _ h)).2.2.1 rfl
        rw [hin] at this
        exact absurd this (by decide)
      · have := ((mem_expected_companies _ _ _ _ (hmem _ h)).2.2.2.1 rfl).1
        rw [hin] at this
        exact absurd this (by decide)

/-- On a server without tables that accepts every statement, the production run does not
throw and creates and seeds companies, then invoices. On the sample server with the
companies table only, the production run creates and seeds invoices and nothing else; the
test run on the sample server without tables only creates the two tables, and no test
run seeds. -/
theorem checkTables_creates_and_seeds_witness :
    (acceptingEngine []).connect (dbName productionEnv) () = (.ok (), ()) ∧
      (acceptingEngine []).query (tablesCheck productionEnv) () = (.ok ⟨[]⟩, ()) ∧
      (checkTables productionEnv (acceptingEngine []) ()).result = .ok () ∧
      (checkTables productionEnv (acceptingEngine []) ()).issued =
        [tablesCheck productionEnv, createQuery (lit "biztime") (lit "companies"),
          seedQuery (lit "biztime") (lit "companies"),
          createQuery (lit "biztime") (lit "invoices"),
          seedQuery (lit "biztime") (lit "invoices")] ∧
      (checkTables productionEnv catalogEngine emptyCatalog).result = .ok () ∧
      (checkTables productionEnv catalogEngine emptyCatalog).issued =
        (checkTables productionEnv (acceptingEngine []) ()).issued ∧
      catalogEngine.connect (dbName productionEnv) halfCatalog = (.ok (), halfCatalog) ∧
      catalogEngine.query (tablesCheck productionEnv) halfCatalog =
        (.ok ⟨[[("tablename", .str (lit "companies"))]]⟩, halfCatalog) ∧
      (checkTables productionEnv catalogEngine halfCatalog).result = .ok () ∧
      (checkTables productionEnv catalogEngine halfCatalog).issued =
        tablesCheck productionEnv :: expectedStatements productionEnv (dbName productionEnv)
          (tableNames ⟨[[("tablename", .str (lit "companies"))]]⟩) ∧
      (checkTables productionEnv catalogEngine halfCatalog).issued =
        [tablesCheck productionEnv, createQuery (lit "biztime") (lit "invoices"),
          seedQuery (lit "biztime") (lit "invoices")] ∧
      isTestEnv plainEnv = true ∧
      (checkTables plainEnv catalogEngine ⟨[lit "biztime_test"], []⟩).issued =
        [tablesCheck plainEnv, createQuery (lit "biztime_test") (lit "companies"),
          createQuery (lit "biztime_test") (lit "invoices")] ∧
      (∀ q ∈ (checkTables plainEnv catalogEngine ⟨[lit "biztime_test"], []⟩).issued,
        q.statement ≠ .insertCompanies ∧ q.statement ≠ .insertInvoices) :=
  ⟨rfl, rfl,
    ((checkTables_creates_and_seeds productionEnv (acceptingEngine []) ()).1 () () ⟨[]⟩
      rfl rfl).2.1 (fun _ _ _ => ⟨_, rfl⟩),
    by decide, by decide, by decide, by decide, by decide, by decide,
    (((checkTables_creates_and_seeds productionEnv catalogEngine halfCatalog).1 halfCatalog
      halfCatalog ⟨[[("tablename", .str (lit "companies"))]]⟩ (by decide)
      (by decide)).2.2.1 (by decide)).1,
    by decide, by decide, by decide,
    (checkTables_creates_and_seeds plainEnv catalogEngine ⟨[lit "biztime_test"], []⟩).2
      (by decide)⟩

/-- C20, as stated, fails: for the company code "code" the invoice lookup compares the
literal with an equal string, so it selects every invoice; GET /companies/code then
carries the ids of the invoices of "apple". -/
theorem invoiceIdsQuery_code_counterexample :
    ¬ (invoiceIdsQuery.run appleInvoices [.str (lit "code")] = []) ∧
    invoiceIdsQuery.run appleInvoices [.str (lit "code")] =
      [[("id", .num 1)], [("id", .num 2)]] ∧
    respond (companiesGetCode plainEnv relationalDb codeRequest
        ([codeRow, abcRow], appleInvoices)).outcome =
      ⟨200, .obj [("company", .obj [("code", .str (lit "code")),
        ("name", .str (lit "Code Inc")), ("description", .str (lit "C")),
        ("invoices", .arr [.obj [("id", .num 1)], .obj [("id", .num 2)]])])]⟩ := by
  decide

/-- C20, amended: the invoice lookup of GET /companies/:code, which compares the literal
string "code" with the bound company code, returns zero rows for every content of the
invoices table whenever the bound code is not the string "code"; when the bound code is
"code" it returns the id of every invoice. -/
theorem invoiceIdsQuery_rows (content : List Props) :
    (∀ code : JsVal, code ≠ .str (lit "code") →
      invoiceIdsQuery.run content [code] = []) ∧
    invoiceIdsQuery.run content [.str (lit "code")] =
      content.map (fun row => [("id", prop row "id")]) := by
  exact literal_param_run ["id"] "invoices" (lit "code") content

/-- For the company "abc" the lookup returns no row over the invoices of "apple", and
GET /companies/abc carries an empty `invoices`. -/
theorem invoiceIdsQuery_rows_witness :
    JsVal.str (lit "abc") ≠ .str (lit "code") ∧
      invoiceIdsQuery.run appleInvoices [.str (lit "abc")] = [] ∧
      respond (companiesGetCode plainEnv relationalDb abcRequest
          ([codeRow, abcRow], appleInvoices)).outcome =
        ⟨200, .obj [("company", .obj [("code", .str (lit "abc")),
          ("name", .str (lit "Abc")), ("description", .str (lit "A")),
          ("invoices", .arr [])])]⟩ :=
  ⟨by decide, (invoiceIdsQuery_rows appleInvoices).1 (.str (lit "abc")) (by decide),
    by decide⟩

/-- C21: sanitization makes the name format rule redundant. For every string `s`,
`validateInput(sanitizeInput(s), "name")` returns `true` exactly when the sanitized string
has a non-whitespace code unit; otherwise it returns the "cannot be empty" error, and never
the "must contain only letters, numbers, spaces, and hyphens" error. -/
theorem validateInput_name_after_sanitize (s : JsString) :
    (validateInput (sanitizeInput (.str s)) (lit "name") = .ok .valid ↔
      ∃ t, sanitizeInput (.str s) = .str t ∧ ∃ c ∈ t, isJsWhitespace c = false) ∧
    (validateInput (sanitizeInput (.str s)) (lit "name") = .ok .valid ∨
      validateInput (sanitizeInput (.str s)) (lit "name") =
        .ok (.invalid (lit "Invalid name: cannot be empty"))) ∧
    validateInput (sanitizeInput (.str s)) (lit "name") ≠
      .ok (.invalid
        (lit "Invalid name: must contain only letters, numbers, spaces, and hyphens")) := by
  have hmsg : lit "Invalid " ++ lit "name" ++ lit ": cannot be empty" =
      lit "Invalid name: cannot be empty" := by decide
  have hdiff : lit "Invalid name: cannot be empty" ≠
      lit "Invalid name: must contain only letters, numbers, spaces, and hyphens" := by
    decide
  rw [sanitizeInput_str, validateInput_str_name, hmsg]
  by_cases hblank : s.filter isAllowed = [] ∨ trim (s.filter isAllowed) = []
  · rw [if_pos hblank]
    refine ⟨⟨fun h => absurd h (by simp), ?_⟩, Or.inr rfl, ?_⟩
    · rintro ⟨t, ht, c, hc, hw⟩
      simp only [JsVal.str.injEq] at ht
      subst ht
      have hall : ∀ c ∈ s.filter isAllowed, isJsWhitespace c = true := by
        rcases hblank with h | h
        · rw [h]; simp
        · exact (trim_eq_nil _).mp h
      rw [hall c hc] at hw
      exact absurd hw (by decide)
    · intro h
      simp only [Except.ok.injEq, Validation.invalid.injEq] at h
      exact hdiff h
  · rw [if_neg hblank]
    simp only [not_or] at hblank
    rw [if_pos (testAnchored_name_filter s hblank.1)]
    refine ⟨⟨fun _ => ?_, fun _ => rfl⟩, Or.inl rfl, by simp⟩
    have h2 := hblank.2
    rw [trim_eq_nil] at h2
    simp only [not_forall, Bool.not_eq_true] at h2
    obtain ⟨c, hc, hw⟩ := h2
    exact ⟨_, rfl, c, hc, hw⟩

/-- C22: every query POST /invoices issues is the INSERT bound to the sanitized comp_code
and the sanitized amt of a body whose amt is a string; the bound amt consists of letters,
digits, whitespace and hyphens only, so it holds no decimal point ("12.50" is bound as
"1250"). A body whose amt is a number is answered 400 and nothing is issued. -/
theorem invoicesPost_binds_sanitized_amt {σ : Type} (env : ProcessEnv) (db : Db σ)
    (req : Request) (s : σ) :
    (∀ q ∈ (invoicesPost env db req s).issued,
      ∃ amt, prop req.body "amt" = .str amt ∧
        q = ⟨.insertInvoice, [sanitizeInput (prop req.body "comp_code"),
          sanitizeInput (prop req.body "amt")]⟩ ∧
        sanitizeInput (prop req.body "amt") = .str (amt.filter isAllowed) ∧
        (∀ c ∈ amt.filter isAllowed, isAllowed c = true) ∧
        cu '.' ∉ amt.filter isAllowed) ∧
    sanitizeInput (.str (lit "12.50")) = .str (lit "1250") ∧
    (∀ x, prop req.body "amt" = .num x →
      (respond (invoicesPost env db req s).outcome).status = 400 ∧
      (invoicesPost env db req s).issued = []) := by
  refine ⟨?_, by decide, ?_⟩
  · intro q hq
    unfold invoicesPost at hq
    split_ifs at hq with h1 h2
    · simp [reject] at hq
    · simp [reject] at hq
    · cases hcv : sanitizeInput (prop req.body "comp_code") <;> rw [hcv] at hq <;>
        try (simp [reject] at hq; done)
      rename_i code
      simp only at hq
      split_ifs at hq with h3 h4
      · simp [reject] at hq
      · simp [reject] at hq
      · cases hav : sanitizeInput (prop req.body "amt") <;> rw [hav] at hq <;>
          try (simp [reject] at hq; done)
        rename_i bound
        obtain ⟨amt, hamt, hbound⟩ := sanitizeInput_eq_str _ _ hav
        simp only at hq
        split_ifs at hq with h5 h6
        · simp [reject] at hq
        · simp [reject] at hq
        · have hiss : q ∈ (hookedQuery env db
              ⟨.insertInvoice, [.str code, .str bound]⟩ s).2.1 := by
            rcases hh : hookedQuery env db ⟨.insertInvoice, [.str code, .str bound]⟩ s with
              ⟨r, issued, s1⟩
            rw [hh] at hq
            cases r with
            | error e => simpa using hq
            | ok res =>
              simp only at hq
              split_ifs at hq <;> simpa using hq
          have hq2 : q = ⟨.insertInvoice, [.str code, .str bound]⟩ := by
            rcases hookedQuery_error_issued env db
              ⟨.insertInvoice, [.str code, .str bound]⟩ s with h | h
            · rw [h] at hiss; simp at hiss
            · rw [h] at hiss; simpa using hiss
          refine ⟨amt, hamt, hq2, by rw [hbound], ?_, ?_⟩
          · intro c hc
            exact (List.mem_filter.mp hc).2
          · intro hc
            have := (List.mem_filter.mp hc).2
            exact absurd this (by decide)
  · intro x hx
    unfold invoicesPost
    split_ifs with h1 h2
    · exact ⟨rfl, rfl⟩
    · exact ⟨rfl, rfl⟩
    · cases hcv : sanitizeInput (prop req.body "comp_code") <;>
        try exact ⟨rfl, rfl⟩
      rename_i code
      simp only
      split_ifs
      · exact ⟨rfl, rfl⟩
      · exact ⟨rfl, rfl⟩
      · rw [hx]
        exact ⟨rfl, rfl⟩

/-- Posting the amount "12.50" for company "ibm" issues the INSERT bound to "1250"; posting
the amount as the number 100 is answered 400 without a query. -/
theorem invoicesPost_binds_sanitized_amt_witness :
    (⟨.insertInvoice, [.str (lit "ibm"), .str (lit "1250")]⟩ : Query) ∈
        (invoicesPost plainEnv (answeringDb []) decimalInvoiceRequest ()).issued ∧
      (∃ amt, prop decimalInvoiceRequest.body "amt" = .str amt ∧
        (⟨.insertInvoice, [.str (lit "ibm"), .str (lit "1250")]⟩ : Query) =
          ⟨.insertInvoice, [sanitizeInput (prop decimalInvoiceRequest.body "comp_code"),
            sanitizeInput (prop decimalInvoiceRequest.body "amt")]⟩ ∧
        sanitizeInput (prop decimalInvoiceRequest.body "amt") =
          .str (amt.filter isAllowed) ∧
        (∀ c ∈ amt.filter isAllowed, isAllowed c = true) ∧
        cu '.' ∉ amt.filter isAllowed) ∧
      prop numberInvoiceRequest.body "amt" = .num 100 ∧
      (respond (invoicesPost plainEnv (answeringDb []) numberInvoiceRequest ()).outcome).status
        = 400 ∧
      (invoicesPost plainEnv (answeringDb []) numberInvoiceRequest ()).issued = [] :=
  ⟨by decide,
    (invoicesPost_binds_sanitized_amt plainEnv (answeringDb []) decimalInvoiceRequest ()).1
      ⟨.insertInvoice, [.str (lit "ibm"), .str (lit "1250")]⟩ (by decide),
    by decide,
    ((invoicesPost_binds_sanitized_amt plainEnv (answeringDb []) numberInvoiceRequest ()).2.2
      100 (by decide)).1,
    ((invoicesPost_binds_sanitized_amt plainEnv (answeringDb []) numberInvoiceRequest ()).2.2
      100 (by decide)).2⟩

end NodePg
